import Mathlib

/-!
# gsnode: the single-task generation loop of `examples/gsnode/gs.cpp`

A shallow embedding of `gsAddTask`, `gsDoOnce` and `gsCancelTask` together with
the globals they work on (`currentTask`, `ctxDirty`, `ctxTok`,
`ctxConsumedTokens` and the llama context `ctx`).

Modelling conventions.

* A C array of `MODEL_MAX_TOKENS` ints is a function `Nat → llama_token` giving
  the content of every cell; the cells at index `2048` and above are not part of
  the C object, so that a call stays below that index is a property of the
  states it is made in, to be proved and not assumed.
* The `int` fields that hold lengths (`workLen`, `systemPromptLen`,
  `ctxConsumedTokens`) are natural numbers: they are only ever assigned a
  `size()`, a constant or an increment.  `tokensGenerated` and `maxNewTokens`
  are integers (`maxNewTokens` comes from the caller and may be negative).
  `tokensGenerated++` is only reached below `maxNewTokens`, `workLen++` only
  below the roll threshold and `ctxConsumedTokens++` only below
  `MODEL_MAX_TOKENS`, so no increment overflows a 32 bit `int`.
* The llama library is a parameter (`Backend`): its context is an abstract
  state `β` that `llama_eval` transforms, and the token picked by
  `llama_get_logits` followed by `llama_sample_token_greedy` is a function of
  that state.
* What a call hands to the outside is recorded as a list of `Event`s, in call
  order: `GsTokenCallback`, `GsFinishCallback` and `llama_eval`.
  `printf`, `free` and `llama_print_timings` are left out.
-/

namespace Gs

/-- Token ids: `llama_token` is a C `int`. -/
abbrev llama_token := Int

@[simp] def MODEL_MAX_TOKENS : Nat := 2048
@[simp] def TASK_STATE_INVALID : Int := 0
@[simp] def TASK_STATE_RUNNING : Int := 1
@[simp] def modelContextRollThreshold : Nat := 2000
@[simp] def modelContextRollTarget : Nat := 1024

/-- The struct `Task` of `gs.h`. -/
structure Task where
  taskState : Int
  taskID : Nat
  maxNewTokens : Int
  tokensGenerated : Int
  temperature : Int
  topP : Int
  workTok : Nat → llama_token
  workLen : Nat
  systemPromptTok : Nat → llama_token
  systemPromptLen : Nat

/-- What a call makes visible outside: the two transport callbacks and the
evaluation requests sent to the llama context. -/
inductive Event where
  | token (id : Nat) (buf : String)
  | finish (id : Nat)
  | eval (tokens : List llama_token) (n_past : Nat)
deriving DecidableEq

/-- The llama library and the `params` set by `gsInit`, as seen by `gs.cpp`.
`n_batch` is `params.n_batch`, which `gsInit` sets to 128 (1024 with cuBLAS).
`eval c tokens n_past` is `llama_eval`: the new context and the returned status
(an `int`, 0 on success; `gs.cpp` never looks at it).  `sampleGreedy c` is the
token chosen by `llama_sample_token_greedy` over `llama_get_logits(ctx)`. -/
structure Backend (β : Type) where
  n_batch : Nat
  n_batch_pos : 0 < n_batch
  tokenize : String → Bool → List llama_token
  eval : β → List llama_token → Nat → β × Int
  sampleGreedy : β → llama_token
  token_eos : llama_token
  token_to_str : llama_token → String

/-- The globals of `gs.cpp`. -/
structure State (β : Type) where
  ctx : β
  currentTask : Task
  ctxDirty : Bool
  ctxTok : Nat → llama_token
  ctxConsumedTokens : Nat

/-- Result of one exported call: the returned `int`, the events of the call in
order, and the globals afterwards. -/
structure Step (β : Type) where
  ret : Int
  events : List Event
  state : State β

/-- The globals after static initialisation (`Task currentTask = {0}`,
`ctxDirty = true`, zeroed `ctxTok`, `ctxConsumedTokens = 0`) and `gsInit`. -/
def initState {β : Type} (c : β) : State β :=
  { ctx := c
    currentTask :=
      { taskState := 0, taskID := 0, maxNewTokens := 0, tokensGenerated := 0,
        temperature := 0, topP := 0, workTok := fun _ => 0, workLen := 0,
        systemPromptTok := fun _ => 0, systemPromptLen := 0 }
    ctxDirty := true
    ctxTok := fun _ => 0
    ctxConsumedTokens := 0 }

/-- The cells `a[lo], ..., a[hi-1]` as a list. -/
def slice (a : Nat → llama_token) (lo hi : Nat) : List llama_token :=
  (List.range (hi - lo)).map (fun i => a (lo + i))

/-- The call `memcpy(dst + dstOff, src.data() + srcOff, n * sizeof(llama_token))`
with a `std::vector` source. -/
def memcpyVec (dst : Nat → llama_token) (dstOff : Nat) (src : List llama_token)
    (srcOff n : Nat) : Nat → llama_token :=
  fun i => if dstOff ≤ i ∧ i < dstOff + n then src.getD (srcOff + (i - dstOff)) 0 else dst i

/-- The call `memmove(a + dstOff, a + srcOff, n * sizeof(llama_token))`: every
destination cell receives the value its source cell had before the call. -/
def memmove (a : Nat → llama_token) (dstOff srcOff n : Nat) : Nat → llama_token :=
  fun i => if dstOff ≤ i ∧ i < dstOff + n then a (srcOff + (i - dstOff)) else a i

/-- The call `memcpy(dst, src, n * sizeof(llama_token))` between two arrays. -/
def memcpyArr (dst src : Nat → llama_token) (n : Nat) : Nat → llama_token :=
  fun i => if i < n then src i else dst i

/-- The function `gsAddTask` (gs.cpp 57-90).  `llama_tokenize` hands back a
vector whose size it obtained as an `int`, so
`MODEL_MAX_TOKENS - 300 - systemPromptTokens.size()`, computed in `size_t` and
converted to `int`, is the mathematical difference. -/
def gsAddTask {β : Type} (B : Backend β) (id : Nat) (system history : String)
    (maxNewTokens temperature topP : Int) (st : State β) : Step β :=
  let systemPromptTokens := B.tokenize system true
  let historyTokens := B.tokenize history false
  let historyLen : Int := (MODEL_MAX_TOKENS : Int) - 300 - systemPromptTokens.length
  if historyLen ≤ 0 then
    { ret := -1, events := [], state := st }
  else
    let historyLen : Int :=
      if historyLen > historyTokens.length then historyTokens.length else historyLen
    let systemPromptLen := systemPromptTokens.length
    let t := st.currentTask
    let workTok1 := memcpyVec t.workTok 0 systemPromptTokens 0 systemPromptLen
    let workTok2 := memcpyVec workTok1 systemPromptLen historyTokens
      (historyTokens.length - historyLen.toNat) historyLen.toNat
    { ret := 0
      events := []
      state :=
        { st with
          currentTask :=
            { taskState := TASK_STATE_RUNNING
              taskID := id
              maxNewTokens := maxNewTokens
              tokensGenerated := 0
              temperature := temperature
              topP := topP
              workTok := workTok2
              workLen := systemPromptLen + historyLen.toNat
              systemPromptTok :=
                memcpyVec t.systemPromptTok 0 systemPromptTokens 0 systemPromptTokens.length
              systemPromptLen := systemPromptLen }
          ctxDirty := true } }

/-- The body of the roll block of `gsDoOnce` on the task (gs.cpp 102-107).
The source pointer `workTok + workLen - nextHistoryLen` is only formed when
`workLen ≥ 2000 > nextHistoryLen`, so the offset is not negative. -/
def rollContext (t : Task) : Task :=
  let nextHistoryLen : Int := (modelContextRollTarget : Int) - t.systemPromptLen
  let workTok :=
    if nextHistoryLen > 0 then
      memmove t.workTok t.systemPromptLen (t.workLen - nextHistoryLen.toNat) nextHistoryLen.toNat
    else t.workTok
  { t with workTok := workTok, workLen := modelContextRollTarget }

/-- The roll block of `gsDoOnce` (gs.cpp 99-109). -/
def rollPhase {β : Type} (st : State β) : State β :=
  if st.currentTask.workLen ≥ modelContextRollThreshold then
    { st with currentTask := rollContext st.currentTask, ctxDirty := true }
  else st

/-- The comparison loop of `gsDoOnce` (gs.cpp 122-129), entered at index `i`
with `k` iterations left; `tokensCanKeep` equals `i` throughout. -/
def keepLoop (ctxTok workTok : Nat → llama_token) : Nat → Nat → Nat
  | 0, i => i
  | k + 1, i => if ctxTok i ≠ workTok i then i else keepLoop ctxTok workTok k (i + 1)

/-- The batching loop of `gsDoOnce` (gs.cpp 136-142) entered with `n_past` and
context `c`; the first argument bounds the number of iterations, and
`workLen - n_past` is enough since every batch has at least one token. -/
def evalLoop {β : Type} (B : Backend β) (workTok : Nat → llama_token) (workLen : Nat) :
    Nat → Nat → β → List Event × β
  | 0, _, c => ([], c)
  | fuel + 1, n_past, c =>
    if n_past < workLen then
      let n_batch := min B.n_batch (workLen - n_past)
      let toks := slice workTok n_past (n_past + n_batch)
      let r := evalLoop B workTok workLen fuel (n_past + n_batch) (B.eval c toks n_past).1
      (Event.eval toks n_past :: r.1, r.2)
    else ([], c)

/-- The reconciliation block of `gsDoOnce` (gs.cpp 121-145). -/
def reconcile {β : Type} (B : Backend β) (st : State β) : List Event × State β :=
  let t := st.currentTask
  let tokensCanKeep := keepLoop st.ctxTok t.workTok st.ctxConsumedTokens 0
  let r := evalLoop B t.workTok t.workLen (t.workLen - tokensCanKeep) tokensCanKeep st.ctx
  (r.1,
    { st with
      ctx := r.2
      ctxTok := memcpyArr st.ctxTok t.workTok t.workLen
      ctxConsumedTokens := t.workLen
      ctxDirty := false })

/-- The statement `if (ctxDirty) ...` of `gsDoOnce` (gs.cpp 119-146). -/
def reconcilePhase {β : Type} (B : Backend β) (st : State β) : List Event × State β :=
  if st.ctxDirty then reconcile B st else ([], st)

/-- The value `nextToken` of `gsDoOnce` (gs.cpp 147-157): the greedy choice on
the context as it is after the roll block and the reconciliation block. -/
def nextToken {β : Type} (B : Backend β) (st : State β) : llama_token :=
  B.sampleGreedy (reconcilePhase B (rollPhase st)).2.ctx

/-- The function `gsDoOnce` (gs.cpp 92-179). -/
def gsDoOnce {β : Type} (B : Backend β) (st : State β) : Step β :=
  if st.currentTask.taskState ≠ TASK_STATE_RUNNING then
    { ret := 0, events := [], state := st }
  else
    let st1 := rollPhase st
    if st1.currentTask.tokensGenerated ≥ st1.currentTask.maxNewTokens then
      { ret := 0
        events := [Event.finish st1.currentTask.taskID]
        state :=
          { st1 with
            currentTask := { st1.currentTask with taskState := TASK_STATE_INVALID }
            ctxDirty := true } }
    else
      let r := reconcilePhase B st1
      let st2 := r.2
      let nextToken := B.sampleGreedy st2.ctx
      if nextToken = B.token_eos then
        { ret := 0
          events := r.1 ++ [Event.finish st2.currentTask.taskID]
          state :=
            { st2 with
              currentTask := { st2.currentTask with taskState := TASK_STATE_INVALID }
              ctxDirty := true } }
      else
        let t := st2.currentTask
        let tokenStr := B.token_to_str nextToken
        let c := (B.eval st2.ctx [nextToken] t.workLen).1
        let t1 : Task :=
          { t with
            workTok := Function.update t.workTok t.workLen nextToken
            workLen := t.workLen + 1
            tokensGenerated := t.tokensGenerated + 1 }
        let evs := r.1 ++ [Event.token t.taskID tokenStr, Event.eval [nextToken] t.workLen]
        if st2.ctxConsumedTokens < MODEL_MAX_TOKENS then
          { ret := 1
            events := evs
            state :=
              { st2 with
                ctx := c
                currentTask := t1
                ctxTok := Function.update st2.ctxTok st2.ctxConsumedTokens nextToken
                ctxConsumedTokens := st2.ctxConsumedTokens + 1 } }
        else
          { ret := 1
            events := evs
            state := { st2 with ctx := c, currentTask := t1, ctxDirty := true } }

/-- The function `gsCancelTask` (gs.cpp 181-190). -/
def gsCancelTask {β : Type} (id : Nat) (st : State β) : Step β :=
  if st.currentTask.taskID = id then
    { ret := 0
      events := []
      state :=
        { st with
          currentTask := { st.currentTask with taskState := TASK_STATE_INVALID }
          ctxDirty := true } }
  else
    { ret := -1, events := [], state := st }

/-- The states the globals can be in: the initial state and whatever any
sequence of the three exported calls makes of it, for any arguments. -/
inductive Reachable {β : Type} (B : Backend β) : State β → Prop where
  | init (c : β) : Reachable B (initState c)
  | addTask {st : State β} (id : Nat) (system history : String)
      (maxNewTokens temperature topP : Int) :
      Reachable B st →
      Reachable B (gsAddTask B id system history maxNewTokens temperature topP st).state
  | doOnce {st : State β} : Reachable B st → Reachable B (gsDoOnce B st).state
  | cancelTask {st : State β} (id : Nat) :
      Reachable B st → Reachable B (gsCancelTask id st).state

/-- The globals after `n` consecutive calls of `gsDoOnce`, with all events of
those calls in order. -/
def run {β : Type} (B : Backend β) : Nat → State β → List Event × State β
  | 0, st => ([], st)
  | n + 1, st =>
    let r := gsDoOnce B st
    let rest := run B n r.state
    (r.events ++ rest.1, rest.2)

/-- The events that reach the transport: token and finished callbacks. -/
def transportEvents (evs : List Event) : List Event :=
  evs.filter (fun e => match e with
    | Event.eval _ _ => false
    | _ => true)

/-- A small backend for concrete runs: the context counts evaluated tokens,
the tokenizer yields one token per character (after a leading 1 when the
special first token is asked for), the greedy choice is always 9 and the id
that ends a sequence is 2. -/
def toyBackend : Backend Nat :=
  { n_batch := 128
    n_batch_pos := by decide
    tokenize := fun s addBos =>
      (if addBos then [1] else []) ++ s.data.map (fun ch => (ch.toNat : Int))
    eval := fun c toks _ => (c + toks.length, 0)
    sampleGreedy := fun _ => 9
    token_eos := 2
    token_to_str := fun t => toString t }

/-- A backend like `toyBackend` whose tokenizer ignores the text: it returns `S` for
the system prompt (special first token asked for) and `H` for the history. -/
def fixedBackend (S H : List llama_token) : Backend Nat :=
  { n_batch := 128
    n_batch_pos := by decide
    tokenize := fun _ addBos => if addBos then S else H
    eval := fun c toks _ => (c + toks.length, 0)
    sampleGreedy := fun _ => 9
    token_eos := 2
    token_to_str := fun t => toString t }

/-- A running task at the roll threshold, as left by an add of `sys` system tokens
followed by generation up to working length 2000: cell `i` of the working array
holds `i`, the cache mirrors it, `generated` tokens of `budget` are produced. -/
def rollState (sys : Nat) (generated budget : Int) : State Nat :=
  { ctx := 2000
    currentTask :=
      { taskState := TASK_STATE_RUNNING, taskID := 7, maxNewTokens := budget,
        tokensGenerated := generated, temperature := 100, topP := 100,
        workTok := fun i => (i : Int), workLen := 2000,
        systemPromptTok := fun i => (i : Int), systemPromptLen := sys }
    ctxDirty := false
    ctxTok := fun i => (i : Int)
    ctxConsumedTokens := 2000 }

/-- The backend `toyBackend` with a greedy choice that is always its end-of-sequence
id 2. -/
def eosBackend : Backend Nat :=
  { toyBackend with sampleGreedy := fun _ => 2 }

/-- A backend whose tokenizer yields 1025 system tokens (all 5) and 723 history
tokens (all 6). -/
def longSystemBackend : Backend Nat :=
  fixedBackend (List.replicate 1025 5) (List.replicate 723 6)

/-- The globals after `gsAddTask(7, ..., maxNewTokens = 1000, ...)` on the initial
state with `longSystemBackend`, followed by 252 calls of `gsDoOnce`. -/
def longSystemState : State Nat :=
  (run longSystemBackend 252
    (gsAddTask longSystemBackend 7 "s" "h" 1000 100 100 (initState 0)).state).2

/-- A backend whose tokenizer yields 1100 system tokens (all 5) and 648 history
tokens (all 6). -/
def deepSystemBackend : Backend Nat :=
  fixedBackend (List.replicate 1100 5) (List.replicate 648 6)

/-- The globals after `gsAddTask(7, ..., maxNewTokens = 1000, ...)` on the initial
state with `deepSystemBackend`, followed by 253 calls of `gsDoOnce`. -/
def deepSystemState : State Nat :=
  (run deepSystemBackend 253
    (gsAddTask deepSystemBackend 7 "s" "h" 1000 100 100 (initState 0)).state).2

/-- The backend `B` with the status returned by `llama_eval` replaced by `rc`;
the context it leaves is the same. -/
def withStatus {β : Type} (B : Backend β) (rc : β → List llama_token → Nat → Int) :
    Backend β :=
  { B with eval := fun c toks n_past => ((B.eval c toks n_past).1, rc c toks n_past) }

/-- The backend `toyBackend` with a `llama_eval` that reports failure (status 1)
on every call. -/
def failingBackend : Backend Nat :=
  withStatus toyBackend (fun _ _ _ => 1)

/-- One call of the exported interface, with its arguments. -/
inductive Call where
  | addTask (id : Nat) (system history : String) (maxNewTokens temperature topP : Int)
  | doOnce
  | cancelTask (id : Nat)

/-- The effect of one exported call on the globals. -/
def call {β : Type} (B : Backend β) : Call → State β → Step β
  | Call.addTask id system history maxNewTokens temperature topP, st =>
    gsAddTask B id system history maxNewTokens temperature topP st
  | Call.doOnce, st => gsDoOnce B st
  | Call.cancelTask id, st => gsCancelTask id st

/-- The globals after a sequence of exported calls, with all events of those
calls in order. -/
def calls {β : Type} (B : Backend β) : List Call → State β → List Event × State β
  | [], st => ([], st)
  | c :: cs, st =>
    let r := call B c st
    let rest := calls B cs r.state
    (r.events ++ rest.1, rest.2)

/-- The tokens carried by the evaluation requests of an event list, in order. -/
def evalTokens : List Event → List llama_token
  | [] => []
  | Event.eval toks _ :: es => toks ++ evalTokens es
  | _ :: es => evalTokens es

/-- The globals after a task with system "ab" and history "xyz" was added to the
initial state and stepped once, and a second task with the same texts was added. -/
def repeatState : State Nat :=
  (calls toyBackend
    [Call.addTask 7 "ab" "xyz" 5 100 100, Call.doOnce, Call.addTask 8 "ab" "xyz" 5 100 100]
    (initState 0)).2

theorem slice_length (a : Nat → llama_token) (lo hi : Nat) :
    (slice a lo hi).length = hi - lo := by
  simp [slice]

theorem getElem_slice (a : Nat → llama_token) (lo hi i : Nat)
    (h : i < (slice a lo hi).length) : (slice a lo hi)[i] = a (lo + i) := by
  simp [slice]

theorem slice_eq_iff (a : Nat → llama_token) (lo hi : Nat) (l : List llama_token) :
    slice a lo hi = l ↔
      l.length = hi - lo ∧ ∀ i, i < hi - lo → a (lo + i) = l.getD i 0 := by
  constructor
  · intro h
    subst h
    refine ⟨slice_length a lo hi, ?_⟩
    intro i hi_lt
    have hlt : i < (slice a lo hi).length := by simpa [slice_length] using hi_lt
    rw [List.getD_eq_getElem _ _ hlt, getElem_slice]
  · rintro ⟨hlen, hcell⟩
    apply List.ext_getElem
    · rw [slice_length, hlen]
    · intro i h1 h2
      rw [getElem_slice, hcell i (by simpa [slice_length] using h1),
        List.getD_eq_getElem _ _ h2]

theorem slice_congr (a b : Nat → llama_token) (lo hi : Nat)
    (h : ∀ i, lo ≤ i → i < hi → a i = b i) : slice a lo hi = slice b lo hi := by
  unfold slice
  apply List.map_congr_left
  intro i hi_mem
  have := List.mem_range.mp hi_mem
  exact h (lo + i) (by omega) (by omega)

/-! ## gsAddTask -/

theorem gsAddTask_fail {β : Type} (B : Backend β) (id : Nat) (system history : String)
    (maxNewTokens temperature topP : Int) (st : State β)
    (h : 2048 - 300 ≤ (B.tokenize system true).length) :
    gsAddTask B id system history maxNewTokens temperature topP st =
      { ret := -1, events := [], state := st } := by
  unfold gsAddTask
  simp only [ MODEL_MAX_TOKENS]
  rw [if_pos (by push_cast; omega)]

theorem gsAddTask_ok {β : Type} (B : Backend β) (id : Nat) (system history : String)
    (maxNewTokens temperature topP : Int) (st : State β)
    (h : (B.tokenize system true).length < 2048 - 300) :
    let S := B.tokenize system true
    let H := B.tokenize history false
    let k := min (2048 - 300 - S.length) H.length
    gsAddTask B id system history maxNewTokens temperature topP st =
      { ret := 0
        events := []
        state :=
          { st with
            currentTask :=
              { taskState := TASK_STATE_RUNNING
                taskID := id
                maxNewTokens := maxNewTokens
                tokensGenerated := 0
                temperature := temperature
                topP := topP
                workTok :=
                  memcpyVec (memcpyVec st.currentTask.workTok 0 S 0 S.length) S.length H
                    (H.length - k) k
                workLen := S.length + k
                systemPromptTok := memcpyVec st.currentTask.systemPromptTok 0 S 0 S.length
                systemPromptLen := S.length }
            ctxDirty := true } } := by
  intro S H k
  have hk : (if (MODEL_MAX_TOKENS : Int) - 300 - (S.length : Int) > (H.length : Int)
      then (H.length : Int) else (MODEL_MAX_TOKENS : Int) - 300 - (S.length : Int)).toNat = k := by
    simp only [ MODEL_MAX_TOKENS]
    split_ifs with hc
    · simp only [Int.toNat_ofNat]
      show H.length = min (2048 - 300 - S.length) H.length
      have : H.length ≤ 2048 - 300 - S.length := by omega
      omega
    · show _ = min (2048 - 300 - S.length) H.length
      have : S.length < 2048 - 300 := h
      omega
  unfold gsAddTask
  simp only []
  rw [if_neg (by simp only [ MODEL_MAX_TOKENS]; have : S.length < 2048 - 300 := h; push_cast; omega)]
  simp only [hk]

theorem getD_drop (l : List llama_token) (n i : Nat) :
    (l.drop n).getD i 0 = l.getD (n + i) 0 := by
  simp [List.getD_eq_getElem?_getD, List.getElem?_drop]

theorem slice_memcpyVec_system (w : Nat → llama_token) (S H : List llama_token) (k : Nat) :
    slice (memcpyVec (memcpyVec w 0 S 0 S.length) S.length H (H.length - k) k) 0 S.length
      = S := by
  rw [slice_eq_iff]
  refine ⟨by simp, ?_⟩
  intro i hi
  simp only [memcpyVec]
  rw [if_neg (by omega), if_pos (by omega)]
  simp

theorem slice_memcpyVec_history (w : Nat → llama_token) (S H : List llama_token) (k : Nat)
    (hk : k ≤ H.length) :
    slice (memcpyVec (memcpyVec w 0 S 0 S.length) S.length H (H.length - k) k) S.length
      (S.length + k) = H.drop (H.length - k) := by
  rw [slice_eq_iff]
  refine ⟨by simp only [List.length_drop]; omega, ?_⟩
  intro i hi
  simp only [memcpyVec]
  rw [if_pos (by omega), getD_drop]
  congr 1
  omega

/-! ## Claims on gsAddTask -/

/-- C1: when the system tokens S leave a capacity C = 2048 - 300 - |S| > 0, gsAddTask
returns 0 and the task has systemPromptLen = |S|, workLen = |S| + min(C, |H|),
workTok[0:|S|] = S, workTok[|S|:workLen] = the last min(C, |H|) tokens of the history
tokens H, taskState = RUNNING, tokensGenerated = 0, taskID = id, and ctxDirty = true,
whatever the state before the call was. -/
theorem gsAddTask_success {β : Type} (B : Backend β) (id : Nat) (system history : String)
    (maxNewTokens temperature topP : Int) (st : State β)
    (hC : (0 : Int) < 2048 - 300 - ((B.tokenize system true).length : Int)) :
    let S := B.tokenize system true
    let H := B.tokenize history false
    let k := min (2048 - 300 - S.length) H.length
    let r := gsAddTask B id system history maxNewTokens temperature topP st
    r.ret = 0 ∧
    r.state.currentTask.systemPromptLen = S.length ∧
    r.state.currentTask.workLen = S.length + k ∧
    slice r.state.currentTask.workTok 0 S.length = S ∧
    slice r.state.currentTask.workTok S.length r.state.currentTask.workLen
      = H.drop (H.length - k) ∧
    r.state.currentTask.taskState = TASK_STATE_RUNNING ∧
    r.state.currentTask.tokensGenerated = 0 ∧
    r.state.currentTask.maxNewTokens = maxNewTokens ∧
    r.state.currentTask.taskID = id ∧
    r.state.ctxDirty = true := by
  intro S H k r
  have hS : S.length < 2048 - 300 := by
    have : (0 : Int) < 2048 - 300 - (S.length : Int) := hC
    omega
  have hr : r = _ := gsAddTask_ok B id system history maxNewTokens temperature topP st hS
  have hkH : k ≤ H.length := Nat.min_le_right _ _
  rw [hr]
  exact ⟨rfl, rfl, rfl, slice_memcpyVec_system _ S H k, slice_memcpyVec_history _ S H k hkH,
    rfl, rfl, rfl, rfl, rfl⟩

/-- A concrete successful add: system "ab" (tokens 1, 97, 98) and history "xyz" on the
initial state. -/
theorem gsAddTask_success_witness :
    (0 : Int) < 2048 - 300 - ((toyBackend.tokenize "ab" true).length : Int) ∧
    (gsAddTask toyBackend 7 "ab" "xyz" 5 100 100 (initState 0)).ret = 0 ∧
    (gsAddTask toyBackend 7 "ab" "xyz" 5 100 100 (initState 0)).state.currentTask.workLen
      = (toyBackend.tokenize "ab" true).length
        + min (2048 - 300 - (toyBackend.tokenize "ab" true).length)
            (toyBackend.tokenize "xyz" false).length :=
  have h := gsAddTask_success toyBackend 7 "ab" "xyz" 5 100 100 (initState 0) (by decide)
  ⟨by decide, h.1, h.2.2.1⟩

/-- C2: when the system prompt has at least 2048 - 300 = 1748 tokens, gsAddTask returns
-1 and the globals (currentTask, ctxDirty, ctxTok, ctxConsumedTokens and the llama
context) are exactly those before the call, for every history, id and budget. -/
theorem gsAddTask_capacity_failure {β : Type} (B : Backend β) (id : Nat)
    (system history : String) (maxNewTokens temperature topP : Int) (st : State β)
    (hS : 2048 - 300 ≤ (B.tokenize system true).length) :
    (gsAddTask B id system history maxNewTokens temperature topP st).ret = -1 ∧
    (gsAddTask B id system history maxNewTokens temperature topP st).events = [] ∧
    (gsAddTask B id system history maxNewTokens temperature topP st).state = st := by
  rw [gsAddTask_fail B id system history maxNewTokens temperature topP st hS]
  exact ⟨rfl, rfl, rfl⟩

theorem fixedBackend_tokenize_system (S H : List llama_token) (s : String) :
    (fixedBackend S H).tokenize s true = S := rfl

theorem fixedBackend_tokenize_history (S H : List llama_token) (s : String) :
    (fixedBackend S H).tokenize s false = H := rfl

theorem replicate_1748_length :
    2048 - 300 ≤ ((fixedBackend (List.replicate 1748 5) [3]).tokenize "s" true).length := by
  rw [fixedBackend_tokenize_system, List.length_replicate]

/-- A concrete capacity failure: a system prompt of 1748 tokens. -/
theorem gsAddTask_capacity_failure_witness :
    2048 - 300 ≤ ((fixedBackend (List.replicate 1748 5) [3]).tokenize "s" true).length ∧
    (gsAddTask (fixedBackend (List.replicate 1748 5) [3]) 7 "s" "h" 5 100 100
      (initState 0)).ret = -1 ∧
    (gsAddTask (fixedBackend (List.replicate 1748 5) [3]) 7 "s" "h" 5 100 100
      (initState 0)).state = initState 0 :=
  have h := gsAddTask_capacity_failure (fixedBackend (List.replicate 1748 5) [3]) 7 "s" "h"
    5 100 100 (initState 0) replicate_1748_length
  ⟨replicate_1748_length, h.1, h.2.2⟩

/-! ## The blocks of gsDoOnce -/

section phases

variable {β : Type}

@[simp] theorem rollContext_taskState (t : Task) : (rollContext t).taskState = t.taskState := rfl
@[simp] theorem rollContext_taskID (t : Task) : (rollContext t).taskID = t.taskID := rfl
@[simp] theorem rollContext_maxNewTokens (t : Task) :
    (rollContext t).maxNewTokens = t.maxNewTokens := rfl
@[simp] theorem rollContext_tokensGenerated (t : Task) :
    (rollContext t).tokensGenerated = t.tokensGenerated := rfl
@[simp] theorem rollContext_systemPromptLen (t : Task) :
    (rollContext t).systemPromptLen = t.systemPromptLen := rfl
@[simp] theorem rollContext_workLen (t : Task) : (rollContext t).workLen = 1024 := rfl

theorem rollContext_workTok_tail (t : Task) (h : t.systemPromptLen < 1024) :
    (rollContext t).workTok =
      memmove t.workTok t.systemPromptLen (t.workLen - (1024 - t.systemPromptLen))
        (1024 - t.systemPromptLen) := by
  have e : ((modelContextRollTarget : Int) - t.systemPromptLen).toNat
      = 1024 - t.systemPromptLen := by
    simp only [modelContextRollTarget]; omega
  unfold rollContext
  simp only []
  rw [if_pos (by simp only [modelContextRollTarget]; push_cast; omega), e]

theorem rollContext_workTok_degenerate (t : Task) (h : 1024 ≤ t.systemPromptLen) :
    (rollContext t).workTok = t.workTok := by
  unfold rollContext
  simp only []
  rw [if_neg (by simp only [modelContextRollTarget]; push_cast; omega)]

theorem rollPhase_of_ge (st : State β) (h : 2000 ≤ st.currentTask.workLen) :
    rollPhase st = { st with currentTask := rollContext st.currentTask, ctxDirty := true } := by
  unfold rollPhase
  rw [if_pos (by simpa using h)]

theorem rollPhase_of_lt (st : State β) (h : st.currentTask.workLen < 2000) :
    rollPhase st = st := by
  unfold rollPhase
  rw [if_neg (by simpa using h)]

@[simp] theorem rollPhase_taskState (st : State β) :
    (rollPhase st).currentTask.taskState = st.currentTask.taskState := by
  unfold rollPhase; split <;> rfl
@[simp] theorem rollPhase_taskID (st : State β) :
    (rollPhase st).currentTask.taskID = st.currentTask.taskID := by
  unfold rollPhase; split <;> rfl
@[simp] theorem rollPhase_maxNewTokens (st : State β) :
    (rollPhase st).currentTask.maxNewTokens = st.currentTask.maxNewTokens := by
  unfold rollPhase; split <;> rfl
@[simp] theorem rollPhase_tokensGenerated (st : State β) :
    (rollPhase st).currentTask.tokensGenerated = st.currentTask.tokensGenerated := by
  unfold rollPhase; split <;> rfl
@[simp] theorem rollPhase_systemPromptLen (st : State β) :
    (rollPhase st).currentTask.systemPromptLen = st.currentTask.systemPromptLen := by
  unfold rollPhase; split <;> rfl
@[simp] theorem rollPhase_ctxTok (st : State β) : (rollPhase st).ctxTok = st.ctxTok := by
  unfold rollPhase; split <;> rfl
@[simp] theorem rollPhase_ctxConsumedTokens (st : State β) :
    (rollPhase st).ctxConsumedTokens = st.ctxConsumedTokens := by
  unfold rollPhase; split <;> rfl

theorem rollPhase_workLen_lt (st : State β) : (rollPhase st).currentTask.workLen < 2000 := by
  unfold rollPhase
  split
  · show (1024 : Nat) < 2000
    decide
  · rename_i h
    simpa using h

@[simp] theorem reconcilePhase_currentTask (B : Backend β) (st : State β) :
    (reconcilePhase B st).2.currentTask = st.currentTask := by
  unfold reconcilePhase; split <;> rfl

@[simp] theorem reconcilePhase_ctxDirty (B : Backend β) (st : State β) :
    (reconcilePhase B st).2.ctxDirty = false := by
  unfold reconcilePhase
  split
  · rfl
  · rename_i h
    simpa using h

theorem reconcilePhase_of_dirty (B : Backend β) (st : State β) (h : st.ctxDirty = true) :
    reconcilePhase B st = reconcile B st := by
  unfold reconcilePhase
  rw [if_pos h]

theorem reconcilePhase_of_clean (B : Backend β) (st : State β) (h : st.ctxDirty = false) :
    reconcilePhase B st = ([], st) := by
  unfold reconcilePhase
  rw [if_neg (by simp [h])]

theorem reconcile_ctxConsumedTokens (B : Backend β) (st : State β) :
    (reconcile B st).2.ctxConsumedTokens = st.currentTask.workLen := rfl

theorem reconcile_ctxTok (B : Backend β) (st : State β) :
    (reconcile B st).2.ctxTok = memcpyArr st.ctxTok st.currentTask.workTok st.currentTask.workLen :=
  rfl

/-- The events of the batching loop are evaluation requests only, each at a start
position below the working length. -/
theorem evalLoop_events_eval (B : Backend β) (w : Nat → llama_token) (workLen : Nat) :
    ∀ (fuel n_past : Nat) (c : β), ∀ e ∈ (evalLoop B w workLen fuel n_past c).1,
      ∃ toks pos, e = Event.eval toks pos ∧ pos < workLen := by
  intro fuel
  induction fuel with
  | zero => intro n_past c e he; simp [evalLoop] at he
  | succ k ih =>
    intro n_past c e he
    unfold evalLoop at he
    split at he
    · rename_i hlt
      simp only [List.mem_cons] at he
      rcases he with rfl | he
      · exact ⟨_, _, rfl, hlt⟩
      · exact ih _ _ e he
    · simp at he

/-- The batching loop leaves by its own test: once the iteration bound covers the
tokens still to evaluate, a larger bound changes nothing.  So the bound
`workLen - tokensCanKeep` used by `reconcile` never cuts the loop short. -/
theorem evalLoop_fuel_irrelevant (B : Backend β) (w : Nat → llama_token) (workLen : Nat) :
    ∀ (f1 f2 n_past : Nat) (c : β), workLen - n_past ≤ f1 → workLen - n_past ≤ f2 →
      evalLoop B w workLen f1 n_past c = evalLoop B w workLen f2 n_past c := by
  intro f1
  induction f1 with
  | zero =>
    intro f2 n_past c h1 _
    cases f2 with
    | zero => rfl
    | succ j =>
      unfold evalLoop
      rw [if_neg (by omega)]
  | succ k ih =>
    intro f2 n_past c h1 h2
    by_cases hlt : n_past < workLen
    · cases f2 with
      | zero => omega
      | succ j =>
        have hpos := B.n_batch_pos
        have hmin : 1 ≤ min B.n_batch (workLen - n_past) := by
          rw [Nat.le_min]; omega
        conv_lhs => unfold evalLoop
        conv_rhs => unfold evalLoop
        rw [if_pos hlt, if_pos hlt]
        simp only []
        rw [ih j (n_past + min B.n_batch (workLen - n_past)) _ (by omega) (by omega)]
    · cases f2 with
      | zero =>
        unfold evalLoop
        rw [if_neg hlt]
      | succ j =>
        unfold evalLoop
        rw [if_neg hlt, if_neg hlt]

theorem reconcilePhase_events_eval (B : Backend β) (st : State β) :
    ∀ e ∈ (reconcilePhase B st).1,
      ∃ toks pos, e = Event.eval toks pos ∧ pos < st.currentTask.workLen := by
  unfold reconcilePhase
  split
  · exact evalLoop_events_eval B _ _ _ _ _
  · intro e he; simp at he

theorem transportEvents_reconcilePhase (B : Backend β) (st : State β) :
    transportEvents (reconcilePhase B st).1 = [] := by
  unfold transportEvents
  rw [List.filter_eq_nil_iff]
  intro e he
  obtain ⟨toks, pos, rfl, _⟩ := reconcilePhase_events_eval B st e he
  simp

/-! ## The four ways through gsDoOnce -/

theorem gsDoOnce_not_running (B : Backend β) (st : State β)
    (h : st.currentTask.taskState ≠ TASK_STATE_RUNNING) :
    gsDoOnce B st = { ret := 0, events := [], state := st } := by
  unfold gsDoOnce
  rw [if_pos h]

theorem gsDoOnce_budget (B : Backend β) (st : State β)
    (hrun : st.currentTask.taskState = TASK_STATE_RUNNING)
    (hb : st.currentTask.maxNewTokens ≤ st.currentTask.tokensGenerated) :
    gsDoOnce B st =
      { ret := 0
        events := [Event.finish st.currentTask.taskID]
        state :=
          { rollPhase st with
            currentTask := { (rollPhase st).currentTask with taskState := TASK_STATE_INVALID }
            ctxDirty := true } } := by
  unfold gsDoOnce
  rw [if_neg (by simp [hrun])]
  simp only []
  rw [if_pos (by simpa using hb)]
  simp

theorem gsDoOnce_eos (B : Backend β) (st : State β)
    (hrun : st.currentTask.taskState = TASK_STATE_RUNNING)
    (hb : st.currentTask.tokensGenerated < st.currentTask.maxNewTokens)
    (he : nextToken B st = B.token_eos) :
    gsDoOnce B st =
      { ret := 0
        events := (reconcilePhase B (rollPhase st)).1 ++ [Event.finish st.currentTask.taskID]
        state :=
          { (reconcilePhase B (rollPhase st)).2 with
            currentTask := { (rollPhase st).currentTask with taskState := TASK_STATE_INVALID }
            ctxDirty := true } } := by
  unfold gsDoOnce
  rw [if_neg (by simp [hrun])]
  simp only []
  rw [if_neg (by simpa using hb), if_pos (by simpa [nextToken] using he)]
  simp

theorem gsDoOnce_token (B : Backend β) (st : State β)
    (hrun : st.currentTask.taskState = TASK_STATE_RUNNING)
    (hb : st.currentTask.tokensGenerated < st.currentTask.maxNewTokens)
    (he : nextToken B st ≠ B.token_eos)
    (hc : (reconcilePhase B (rollPhase st)).2.ctxConsumedTokens < 2048) :
    gsDoOnce B st =
      { ret := 1
        events := (reconcilePhase B (rollPhase st)).1 ++
          [Event.token st.currentTask.taskID (B.token_to_str (nextToken B st)),
           Event.eval [nextToken B st] (rollPhase st).currentTask.workLen]
        state :=
          { ctx := (B.eval (reconcilePhase B (rollPhase st)).2.ctx [nextToken B st]
              (rollPhase st).currentTask.workLen).1
            currentTask :=
              { (rollPhase st).currentTask with
                workTok := Function.update (rollPhase st).currentTask.workTok
                  (rollPhase st).currentTask.workLen (nextToken B st)
                workLen := (rollPhase st).currentTask.workLen + 1
                tokensGenerated := st.currentTask.tokensGenerated + 1 }
            ctxDirty := false
            ctxTok := Function.update (reconcilePhase B (rollPhase st)).2.ctxTok
              (reconcilePhase B (rollPhase st)).2.ctxConsumedTokens (nextToken B st)
            ctxConsumedTokens := (reconcilePhase B (rollPhase st)).2.ctxConsumedTokens + 1 } } := by
  unfold gsDoOnce
  rw [if_neg (by simp [hrun])]
  simp only []
  rw [if_neg (by simpa using hb), if_neg (by simpa [nextToken] using he),
    if_pos (by simpa using hc)]
  simp [nextToken]

theorem gsDoOnce_token_full (B : Backend β) (st : State β)
    (hrun : st.currentTask.taskState = TASK_STATE_RUNNING)
    (hb : st.currentTask.tokensGenerated < st.currentTask.maxNewTokens)
    (he : nextToken B st ≠ B.token_eos)
    (hc : 2048 ≤ (reconcilePhase B (rollPhase st)).2.ctxConsumedTokens) :
    gsDoOnce B st =
      { ret := 1
        events := (reconcilePhase B (rollPhase st)).1 ++
          [Event.token st.currentTask.taskID (B.token_to_str (nextToken B st)),
           Event.eval [nextToken B st] (rollPhase st).currentTask.workLen]
        state :=
          { ctx := (B.eval (reconcilePhase B (rollPhase st)).2.ctx [nextToken B st]
              (rollPhase st).currentTask.workLen).1
            currentTask :=
              { (rollPhase st).currentTask with
                workTok := Function.update (rollPhase st).currentTask.workTok
                  (rollPhase st).currentTask.workLen (nextToken B st)
                workLen := (rollPhase st).currentTask.workLen + 1
                tokensGenerated := st.currentTask.tokensGenerated + 1 }
            ctxDirty := true
            ctxTok := (reconcilePhase B (rollPhase st)).2.ctxTok
            ctxConsumedTokens := (reconcilePhase B (rollPhase st)).2.ctxConsumedTokens } } := by
  unfold gsDoOnce
  rw [if_neg (by simp [hrun])]
  simp only []
  rw [if_neg (by simpa using hb), if_neg (by simpa [nextToken] using he),
    if_neg (by simpa using hc)]
  simp [nextToken]

/-- In a running call with budget left and a greedy choice that is not the
id ending a sequence, the task, the return value and the events do not depend on
which branch of the final capacity test is taken. -/
theorem gsDoOnce_token_task (B : Backend β) (st : State β)
    (hrun : st.currentTask.taskState = TASK_STATE_RUNNING)
    (hb : st.currentTask.tokensGenerated < st.currentTask.maxNewTokens)
    (he : nextToken B st ≠ B.token_eos) :
    (gsDoOnce B st).ret = 1 ∧
    (gsDoOnce B st).events = (reconcilePhase B (rollPhase st)).1 ++
          [Event.token st.currentTask.taskID (B.token_to_str (nextToken B st)),
           Event.eval [nextToken B st] (rollPhase st).currentTask.workLen] ∧
    (gsDoOnce B st).state.currentTask =
      { (rollPhase st).currentTask with
        workTok := Function.update (rollPhase st).currentTask.workTok
          (rollPhase st).currentTask.workLen (nextToken B st)
        workLen := (rollPhase st).currentTask.workLen + 1
        tokensGenerated := st.currentTask.tokensGenerated + 1 } := by
  by_cases hc : (reconcilePhase B (rollPhase st)).2.ctxConsumedTokens < 2048
  · rw [gsDoOnce_token B st hrun hb he hc]
    exact ⟨rfl, rfl, rfl⟩
  · rw [gsDoOnce_token_full B st hrun hb he (by omega)]
    exact ⟨rfl, rfl, rfl⟩

/-- The task fields after a running call whose sampled token is not the id
ending a sequence. -/
theorem gsDoOnce_token_fields (B : Backend β) (st : State β)
    (hrun : st.currentTask.taskState = TASK_STATE_RUNNING)
    (hb : st.currentTask.tokensGenerated < st.currentTask.maxNewTokens)
    (he : nextToken B st ≠ B.token_eos) :
    (gsDoOnce B st).state.currentTask.workTok (rollPhase st).currentTask.workLen
      = nextToken B st ∧
    (gsDoOnce B st).state.currentTask.workLen = (rollPhase st).currentTask.workLen + 1 ∧
    (gsDoOnce B st).state.currentTask.tokensGenerated = st.currentTask.tokensGenerated + 1 ∧
    (gsDoOnce B st).state.currentTask.taskState = TASK_STATE_RUNNING ∧
    (gsDoOnce B st).state.currentTask.taskID = st.currentTask.taskID ∧
    (gsDoOnce B st).state.currentTask.systemPromptLen = st.currentTask.systemPromptLen := by
  rw [(gsDoOnce_token_task B st hrun hb he).2.2]
  refine ⟨Function.update_same _ _ _, rfl, rfl, ?_, ?_, ?_⟩
  · show (rollPhase st).currentTask.taskState = _
    rw [rollPhase_taskState]; exact hrun
  · exact rollPhase_taskID st
  · exact rollPhase_systemPromptLen st

/-- Cells of the working array after a running call: those the roll block left,
except that the sampler may have written the cell at the rolled length. -/
theorem gsDoOnce_workTok (B : Backend β) (st : State β)
    (hrun : st.currentTask.taskState = TASK_STATE_RUNNING) (i : Nat)
    (hi : i ≠ (rollPhase st).currentTask.workLen) :
    (gsDoOnce B st).state.currentTask.workTok i = (rollPhase st).currentTask.workTok i := by
  by_cases hb : st.currentTask.tokensGenerated < st.currentTask.maxNewTokens
  · by_cases he : nextToken B st = B.token_eos
    · rw [gsDoOnce_eos B st hrun hb he]
    · rw [(gsDoOnce_token_task B st hrun hb he).2.2]
      exact Function.update_noteq hi _ _
  · rw [gsDoOnce_budget B st hrun (by omega)]

theorem rollPhase_workLen_of_ge (st : State β) (h : 2000 ≤ st.currentTask.workLen) :
    (rollPhase st).currentTask.workLen = 1024 := by
  rw [rollPhase_of_ge st h]; rfl

theorem reconcilePhase_rolled (B : Backend β) (st : State β)
    (h : 2000 ≤ st.currentTask.workLen) :
    reconcilePhase B (rollPhase st) = reconcile B (rollPhase st) := by
  apply reconcilePhase_of_dirty
  rw [rollPhase_of_ge st h]

theorem reconcilePhase_rolled_ctxConsumedTokens (B : Backend β) (st : State β)
    (h : 2000 ≤ st.currentTask.workLen) :
    (reconcilePhase B (rollPhase st)).2.ctxConsumedTokens = 1024 := by
  rw [reconcilePhase_rolled B st h, reconcile_ctxConsumedTokens, rollPhase_workLen_of_ge st h]

theorem rollPhase_idem (st : State β) : rollPhase (rollPhase st) = rollPhase st :=
  rollPhase_of_lt _ (rollPhase_workLen_lt st)

/-- A running call is the same call made on the state the roll block leaves. -/
theorem gsDoOnce_rollPhase (B : Backend β) (st : State β)
    (hrun : st.currentTask.taskState = TASK_STATE_RUNNING) :
    gsDoOnce B st = gsDoOnce B (rollPhase st) := by
  have h1 : (rollPhase st).currentTask.taskState = TASK_STATE_RUNNING := by
    rw [rollPhase_taskState]; exact hrun
  by_cases hb : st.currentTask.tokensGenerated < st.currentTask.maxNewTokens
  · have hb1 : (rollPhase st).currentTask.tokensGenerated
        < (rollPhase st).currentTask.maxNewTokens := by simpa using hb
    by_cases he : nextToken B st = B.token_eos
    · have he1 : nextToken B (rollPhase st) = B.token_eos := by
        unfold nextToken at he ⊢; rw [rollPhase_idem]; exact he
      rw [gsDoOnce_eos B st hrun hb he, gsDoOnce_eos B _ h1 hb1 he1]
      simp [rollPhase_idem]
    · have he1 : nextToken B (rollPhase st) ≠ B.token_eos := by
        unfold nextToken at he ⊢; rw [rollPhase_idem]; exact he
      have hn : nextToken B (rollPhase st) = nextToken B st := by
        unfold nextToken; rw [rollPhase_idem]
      by_cases hc : (reconcilePhase B (rollPhase st)).2.ctxConsumedTokens < 2048
      · rw [gsDoOnce_token B st hrun hb he hc,
          gsDoOnce_token B _ h1 hb1 he1 (by rw [rollPhase_idem]; exact hc)]
        simp [rollPhase_idem, hn]
      · rw [gsDoOnce_token_full B st hrun hb he (by omega),
          gsDoOnce_token_full B _ h1 hb1 he1 (by rw [rollPhase_idem]; omega)]
        simp [rollPhase_idem, hn]
  · have hb1 : (rollPhase st).currentTask.maxNewTokens
        ≤ (rollPhase st).currentTask.tokensGenerated := by simp; omega
    rw [gsDoOnce_budget B st hrun (by omega), gsDoOnce_budget B _ h1 hb1]
    simp [rollPhase_idem]

theorem slice_memmove_tail (w : Nat → llama_token) (sys len : Nat) (hs : sys < 1024)
    (hl : 1024 ≤ len) :
    slice (memmove w sys (len - (1024 - sys)) (1024 - sys)) sys 1024
      = slice w (len - (1024 - sys)) len := by
  unfold slice
  have e : len - (len - (1024 - sys)) = 1024 - sys := by omega
  rw [e]
  apply List.map_congr_left
  intro i hi
  have := List.mem_range.mp hi
  simp only [memmove]
  rw [if_pos (by omega)]
  congr 1
  omega

end phases

/-! ## The model on concrete inputs -/

/-- The first call after adding system "ab" and history "xyz" to the initial state:
one batch with the six prompt tokens at position 0, the token callback, and the
evaluation of the new token at position 6. -/
theorem toy_first_call_events :
    (gsDoOnce toyBackend
        (gsAddTask toyBackend 7 "ab" "xyz" 5 100 100 (initState 0)).state).events
      = [Event.eval [1, 97, 98, 120, 121, 122] 0, Event.token 7 "9", Event.eval [9] 6] := by
  decide

/-- With a budget of two tokens, four calls emit two tokens and one finished event. -/
theorem toy_run_budget_two :
    transportEvents
        (run toyBackend 4 (gsAddTask toyBackend 7 "ab" "xyz" 2 100 100 (initState 0)).state).1
      = [Event.token 7 "9", Event.token 7 "9", Event.finish 7] := by
  decide

/-- A call at the roll threshold with the budget used up: the roll and the finished
event happen in the same call, and cell 50 receives the former cell 1026. -/
theorem toy_roll_and_finish :
    (gsDoOnce toyBackend (rollState 50 252 252)).events = [Event.finish 7] ∧
    (gsDoOnce toyBackend (rollState 50 252 252)).state.currentTask.workLen = 1024 ∧
    (gsDoOnce toyBackend (rollState 50 252 252)).state.currentTask.workTok 50 = 1026 := by
  decide

/-! ## Claims on the roll -/

section roll

variable {β : Type}

/-- C3, refuted as stated: on a running task with workLen = 2000 and budget left, the
call that rolls also samples: it returns 1, emits a token event, submits the token to
the backend, counts it in tokensGenerated and ends with workLen = 1025, not 1024. -/
theorem roll_step_also_samples :
    (rollState 50 252 1000).currentTask.taskState = TASK_STATE_RUNNING ∧
    2000 ≤ (rollState 50 252 1000).currentTask.workLen ∧
    (gsDoOnce toyBackend (rollState 50 252 1000)).ret = 1 ∧
    Event.token 7 (toyBackend.token_to_str 9)
      ∈ (gsDoOnce toyBackend (rollState 50 252 1000)).events ∧
    Event.eval [9] 1024 ∈ (gsDoOnce toyBackend (rollState 50 252 1000)).events ∧
    (gsDoOnce toyBackend (rollState 50 252 1000)).state.currentTask.tokensGenerated = 253 ∧
    (gsDoOnce toyBackend (rollState 50 252 1000)).state.currentTask.workLen = 1025 ∧
    ¬ ((gsDoOnce toyBackend (rollState 50 252 1000)).events = [] ∧
       (gsDoOnce toyBackend (rollState 50 252 1000)).state.currentTask.tokensGenerated
         = (rollState 50 252 1000).currentTask.tokensGenerated ∧
       (gsDoOnce toyBackend (rollState 50 252 1000)).state.currentTask.taskState
         = (rollState 50 252 1000).currentTask.taskState ∧
       (gsDoOnce toyBackend (rollState 50 252 1000)).state.currentTask.workLen = 1024) := by
  have h := gsDoOnce_token_task toyBackend (rollState 50 252 1000) rfl (by decide) (by decide)
  have hw : (gsDoOnce toyBackend (rollState 50 252 1000)).state.currentTask.workLen = 1025 := by
    rw [h.2.2]; rfl
  refine ⟨rfl, by decide, h.1, ?_, ?_, ?_, hw, ?_⟩
  · rw [h.2.1]
    exact List.mem_append_right _ (List.mem_cons_self _ _)
  · rw [h.2.1]
    exact List.mem_append_right _ (List.mem_cons_of_mem _ (List.mem_cons_self _ _))
  · rw [h.2.2]; rfl
  · intro hc
    rw [hw] at hc
    exact absurd hc.2.2.2 (by decide)

/-- C3, amended: a running call with workLen ≥ 2000 rolls (workLen := 1024,
ctxDirty := true) and then goes on, in the same call, exactly as a call on the rolled
state does.  With the budget used up it emits one finished event, sets taskState =
INVALID and returns 0 with workLen = 1024.  With budget left it reconciles and samples:
on the end-of-sequence id it emits one finished event and returns 0 with workLen = 1024;
otherwise it returns 1, emits one token event, submits the token at position 1024,
writes it to workTok[1024], and ends RUNNING with workLen = 1025 and tokensGenerated
one higher. -/
theorem gsDoOnce_roll_continues (B : Backend β) (st : State β)
    (hrun : st.currentTask.taskState = TASK_STATE_RUNNING)
    (hlen : 2000 ≤ st.currentTask.workLen) :
    gsDoOnce B st
      = gsDoOnce B { st with currentTask := rollContext st.currentTask, ctxDirty := true } ∧
    (st.currentTask.maxNewTokens ≤ st.currentTask.tokensGenerated →
      (gsDoOnce B st).ret = 0 ∧
      (gsDoOnce B st).events = [Event.finish st.currentTask.taskID] ∧
      (gsDoOnce B st).state.currentTask.taskState = TASK_STATE_INVALID ∧
      (gsDoOnce B st).state.currentTask.workLen = 1024 ∧
      (gsDoOnce B st).state.ctxDirty = true) ∧
    (st.currentTask.tokensGenerated < st.currentTask.maxNewTokens →
      nextToken B st = B.token_eos →
      (gsDoOnce B st).ret = 0 ∧
      transportEvents (gsDoOnce B st).events = [Event.finish st.currentTask.taskID] ∧
      (gsDoOnce B st).state.currentTask.taskState = TASK_STATE_INVALID ∧
      (gsDoOnce B st).state.currentTask.workLen = 1024 ∧
      (gsDoOnce B st).state.ctxDirty = true) ∧
    (st.currentTask.tokensGenerated < st.currentTask.maxNewTokens →
      nextToken B st ≠ B.token_eos →
      (gsDoOnce B st).ret = 1 ∧
      transportEvents (gsDoOnce B st).events
        = [Event.token st.currentTask.taskID (B.token_to_str (nextToken B st))] ∧
      Event.eval [nextToken B st] 1024 ∈ (gsDoOnce B st).events ∧
      (gsDoOnce B st).state.currentTask.taskState = TASK_STATE_RUNNING ∧
      (gsDoOnce B st).state.currentTask.workTok 1024 = nextToken B st ∧
      (gsDoOnce B st).state.currentTask.workLen = 1025 ∧
      (gsDoOnce B st).state.currentTask.tokensGenerated
        = st.currentTask.tokensGenerated + 1) := by
  have hw := rollPhase_workLen_of_ge st hlen
  refine ⟨?_, ?_, ?_, ?_⟩
  · rw [gsDoOnce_rollPhase B st hrun, rollPhase_of_ge st hlen]
  · intro hb
    rw [gsDoOnce_budget B st hrun hb]
    exact ⟨rfl, rfl, rfl, hw, rfl⟩
  · intro hb he
    rw [gsDoOnce_eos B st hrun hb he]
    refine ⟨rfl, ?_, rfl, hw, rfl⟩
    show transportEvents (_ ++ _) = _
    unfold transportEvents
    rw [List.filter_append]
    have := transportEvents_reconcilePhase B (rollPhase st)
    unfold transportEvents at this
    rw [this]
    rfl
  · intro hb he
    have h := gsDoOnce_token_task B st hrun hb he
    refine ⟨h.1, ?_, ?_, ?_, ?_, ?_, ?_⟩
    · rw [h.2.1]
      unfold transportEvents
      rw [List.filter_append]
      have := transportEvents_reconcilePhase B (rollPhase st)
      unfold transportEvents at this
      rw [this]
      rfl
    · rw [h.2.1, hw]
      exact List.mem_append_right _ (List.mem_cons_of_mem _ (List.mem_cons_self _ _))
    · rw [h.2.2]
      show (rollPhase st).currentTask.taskState = _
      rw [rollPhase_taskState]; exact hrun
    · rw [h.2.2]
      show Function.update _ _ _ _ = _
      rw [hw, Function.update_same]
    · rw [h.2.2]
      show (rollPhase st).currentTask.workLen + 1 = _
      rw [hw]
    · rw [h.2.2]

/-- The amended C3 at a concrete running task with workLen = 2000. -/
theorem gsDoOnce_roll_continues_witness :
    (rollState 50 252 1000).currentTask.taskState = TASK_STATE_RUNNING ∧
    2000 ≤ (rollState 50 252 1000).currentTask.workLen ∧
    gsDoOnce toyBackend (rollState 50 252 1000)
      = gsDoOnce toyBackend
          { rollState 50 252 1000 with
            currentTask := rollContext (rollState 50 252 1000).currentTask, ctxDirty := true } :=
  ⟨rfl, by decide, (gsDoOnce_roll_continues toyBackend (rollState 50 252 1000) rfl (by decide)).1⟩

/-- C4: for a running task with workLen ≥ 2000 and systemPromptLen < 1024, after the
gsDoOnce call that rolls, workTok[systemPromptLen:1024] is the last
1024 - systemPromptLen tokens of the working sequence before the call, in order. -/
theorem roll_keeps_tail (B : Backend β) (st : State β)
    (hrun : st.currentTask.taskState = TASK_STATE_RUNNING)
    (hlen : 2000 ≤ st.currentTask.workLen)
    (hsys : st.currentTask.systemPromptLen < 1024) :
    slice (gsDoOnce B st).state.currentTask.workTok st.currentTask.systemPromptLen 1024
      = slice st.currentTask.workTok
          (st.currentTask.workLen - (1024 - st.currentTask.systemPromptLen))
          st.currentTask.workLen := by
  have hw := rollPhase_workLen_of_ge st hlen
  have h1 : slice (gsDoOnce B st).state.currentTask.workTok st.currentTask.systemPromptLen 1024
      = slice (rollPhase st).currentTask.workTok st.currentTask.systemPromptLen 1024 := by
    apply slice_congr
    intro i _ hi
    exact gsDoOnce_workTok B st hrun i (by rw [hw]; omega)
  rw [h1, rollPhase_of_ge st hlen]
  show slice (rollContext st.currentTask).workTok _ _ = _
  rw [rollContext_workTok_tail _ hsys]
  exact slice_memmove_tail _ _ _ hsys (by omega)

/-- The scenario of C4: systemPromptLen = 50 and workLen = 2000 give
workTok[50:1024] = the former workTok[1026:2000], the final 974 tokens. -/
theorem roll_keeps_tail_witness :
    (rollState 50 252 1000).currentTask.taskState = TASK_STATE_RUNNING ∧
    2000 ≤ (rollState 50 252 1000).currentTask.workLen ∧
    (rollState 50 252 1000).currentTask.systemPromptLen < 1024 ∧
    slice (gsDoOnce toyBackend (rollState 50 252 1000)).state.currentTask.workTok 50 1024
      = slice (rollState 50 252 1000).currentTask.workTok (2000 - (1024 - 50)) 2000 :=
  ⟨rfl, by decide, by decide,
    roll_keeps_tail toyBackend (rollState 50 252 1000) rfl (by decide) (by decide)⟩

/-- C6, refuted as stated: with systemPromptLen = 1024 and workLen = 2000 the roll
block does not leave workLen alone, it sets it to 1024; a call that then finishes on
the budget returns with workLen = 1024, and one that samples with workLen = 1025. -/
theorem degenerate_roll_truncates :
    (rollState 1024 252 252).currentTask.taskState = TASK_STATE_RUNNING ∧
    2000 ≤ (rollState 1024 252 252).currentTask.workLen ∧
    1024 ≤ (rollState 1024 252 252).currentTask.systemPromptLen ∧
    (rollPhase (rollState 1024 252 252)).currentTask.workLen = 1024 ∧
    (gsDoOnce toyBackend (rollState 1024 252 252)).state.currentTask.workLen = 1024 ∧
    (gsDoOnce toyBackend (rollState 1024 252 1000)).state.currentTask.workLen = 1025 ∧
    (rollPhase (rollState 1024 252 252)).currentTask.workLen
      ≠ (rollState 1024 252 252).currentTask.workLen := by
  have h := gsDoOnce_token_task toyBackend (rollState 1024 252 1000) rfl (by decide) (by decide)
  refine ⟨rfl, by decide, by decide, rfl, ?_, ?_, by decide⟩
  · rw [gsDoOnce_budget toyBackend (rollState 1024 252 252) rfl (by decide)]
    rfl
  · rw [h.2.2]; rfl

/-- C6, amended: for a running task with workLen ≥ 2000 and systemPromptLen ≥ 1024 the
roll block copies nothing, so it leaves every cell of workTok as it was (no length
≤ 0 reaches memmove), and after the whole call every cell other than index 1024 still
has its value; workLen is not kept: with systemPromptLen = 1024 the roll sets
workLen = 1024 = systemPromptLen, cutting the working sequence down to the system
tokens. -/
theorem degenerate_roll_copies_nothing (B : Backend β) (st : State β)
    (hrun : st.currentTask.taskState = TASK_STATE_RUNNING)
    (hlen : 2000 ≤ st.currentTask.workLen)
    (hsys : 1024 ≤ st.currentTask.systemPromptLen) :
    (rollPhase st).currentTask.workTok = st.currentTask.workTok ∧
    (∀ i, i ≠ 1024 →
      (gsDoOnce B st).state.currentTask.workTok i = st.currentTask.workTok i) ∧
    (st.currentTask.systemPromptLen = 1024 →
      (rollPhase st).currentTask.workLen = st.currentTask.systemPromptLen) := by
  have hw := rollPhase_workLen_of_ge st hlen
  have hk : (rollPhase st).currentTask.workTok = st.currentTask.workTok := by
    rw [rollPhase_of_ge st hlen]
    exact rollContext_workTok_degenerate _ hsys
  refine ⟨hk, ?_, ?_⟩
  · intro i hi
    rw [gsDoOnce_workTok B st hrun i (by rw [hw]; exact hi), hk]
  · intro h
    rw [hw, h]

/-- The amended C6 at a concrete task with systemPromptLen = 1024, workLen = 2000. -/
theorem degenerate_roll_copies_nothing_witness :
    (rollState 1024 252 1000).currentTask.taskState = TASK_STATE_RUNNING ∧
    2000 ≤ (rollState 1024 252 1000).currentTask.workLen ∧
    1024 ≤ (rollState 1024 252 1000).currentTask.systemPromptLen ∧
    (rollPhase (rollState 1024 252 1000)).currentTask.workTok
      = (rollState 1024 252 1000).currentTask.workTok :=
  ⟨rfl, by decide, by decide,
    (degenerate_roll_copies_nothing toyBackend (rollState 1024 252 1000) rfl (by decide)
      (by decide)).1⟩

end roll

/-! ## Runs of gsDoOnce -/

section runs

variable {β : Type}

theorem transportEvents_append (a b : List Event) :
    transportEvents (a ++ b) = transportEvents a ++ transportEvents b := by
  unfold transportEvents
  exact List.filter_append _ _

theorem run_succ_last (B : Backend β) :
    ∀ (n : Nat) (st : State β),
      run B (n + 1) st =
        ((run B n st).1 ++ (gsDoOnce B (run B n st).2).events,
          (gsDoOnce B (run B n st).2).state) := by
  intro n
  induction n with
  | zero => intro st; simp [run]
  | succ k ih =>
    intro st
    have e : run B (k + 1 + 1) st =
        ((gsDoOnce B st).events ++ (run B (k + 1) (gsDoOnce B st).state).1,
          (run B (k + 1) (gsDoOnce B st).state).2) := rfl
    have e1 : run B (k + 1) st =
        ((gsDoOnce B st).events ++ (run B k (gsDoOnce B st).state).1,
          (run B k (gsDoOnce B st).state).2) := rfl
    rw [e, ih (gsDoOnce B st).state, e1]
    simp [List.append_assoc]

theorem run_add (B : Backend β) (a : Nat) :
    ∀ (b : Nat) (st : State β),
      run B (a + b) st =
        ((run B a st).1 ++ (run B b (run B a st).2).1, (run B b (run B a st).2).2) := by
  induction a with
  | zero => intro b st; simp [run]
  | succ k ih =>
    intro b st
    have e : k + 1 + b = (k + b) + 1 := by omega
    have e1 : run B (k + b + 1) st =
        ((gsDoOnce B st).events ++ (run B (k + b) (gsDoOnce B st).state).1,
          (run B (k + b) (gsDoOnce B st).state).2) := rfl
    have e2 : run B (k + 1) st =
        ((gsDoOnce B st).events ++ (run B k (gsDoOnce B st).state).1,
          (run B k (gsDoOnce B st).state).2) := rfl
    rw [e, e1, ih b (gsDoOnce B st).state, e2]
    simp [List.append_assoc]

/-- Calls on a task that is not running change nothing and emit nothing. -/
theorem run_not_running (B : Backend β) (st : State β)
    (h : st.currentTask.taskState ≠ TASK_STATE_RUNNING) :
    ∀ n : Nat, run B n st = ([], st) := by
  intro n
  induction n with
  | zero => rfl
  | succ k ih =>
    rw [run_succ_last, ih]
    simp only []
    rw [gsDoOnce_not_running B st h]
    rfl

/-- The transport events of a running call with budget left whose greedy choice is
not the end-of-sequence id. -/
theorem gsDoOnce_token_transport (B : Backend β) (st : State β)
    (hrun : st.currentTask.taskState = TASK_STATE_RUNNING)
    (hb : st.currentTask.tokensGenerated < st.currentTask.maxNewTokens)
    (he : nextToken B st ≠ B.token_eos) :
    transportEvents (gsDoOnce B st).events
      = [Event.token st.currentTask.taskID (B.token_to_str (nextToken B st))] := by
  rw [(gsDoOnce_token_task B st hrun hb he).2.1, transportEvents_append,
    transportEvents_reconcilePhase]
  rfl

/-- While the budget lasts and the greedy choice is never the end-of-sequence id,
every call emits one token event and counts one token. -/
theorem run_generating (B : Backend β) (st : State β)
    (hrun : st.currentTask.taskState = TASK_STATE_RUNNING) :
    ∀ m : Nat, st.currentTask.tokensGenerated + m ≤ st.currentTask.maxNewTokens →
      (∀ k, k < m → nextToken B (run B k st).2 ≠ B.token_eos) →
      (run B m st).2.currentTask.taskState = TASK_STATE_RUNNING ∧
      (run B m st).2.currentTask.taskID = st.currentTask.taskID ∧
      (run B m st).2.currentTask.maxNewTokens = st.currentTask.maxNewTokens ∧
      (run B m st).2.currentTask.tokensGenerated = st.currentTask.tokensGenerated + m ∧
      transportEvents (run B m st).1 =
        (List.range m).map (fun k =>
          Event.token st.currentTask.taskID (B.token_to_str (nextToken B (run B k st).2))) := by
  intro m
  induction m with
  | zero =>
    intro _ _
    exact ⟨hrun, rfl, rfl, by simp [run], rfl⟩
  | succ j ih =>
    intro hb hne
    obtain ⟨h1, h2, h3, h4, h5⟩ := ih (by push_cast at hb; omega)
      (fun k hk => hne k (by omega))
    have hb1 : (run B j st).2.currentTask.tokensGenerated
        < (run B j st).2.currentTask.maxNewTokens := by
      rw [h3, h4]; push_cast at hb; omega
    have he := hne j (by omega)
    have ht := gsDoOnce_token_task B (run B j st).2 h1 hb1 he
    rw [run_succ_last]
    refine ⟨?_, ?_, ?_, ?_, ?_⟩
    · show (gsDoOnce B (run B j st).2).state.currentTask.taskState = _
      rw [ht.2.2]
      show (rollPhase _).currentTask.taskState = _
      rw [rollPhase_taskState]; exact h1
    · show (gsDoOnce B (run B j st).2).state.currentTask.taskID = _
      rw [ht.2.2]
      show (rollPhase _).currentTask.taskID = _
      rw [rollPhase_taskID]; exact h2
    · show (gsDoOnce B (run B j st).2).state.currentTask.maxNewTokens = _
      rw [ht.2.2]
      show (rollPhase _).currentTask.maxNewTokens = _
      rw [rollPhase_maxNewTokens]; exact h3
    · show (gsDoOnce B (run B j st).2).state.currentTask.tokensGenerated = _
      rw [ht.2.2]
      show (run B j st).2.currentTask.tokensGenerated + 1 = _
      rw [h4]; push_cast; omega
    · show transportEvents ((run B j st).1 ++ (gsDoOnce B (run B j st).2).events) = _
      rw [transportEvents_append, h5, gsDoOnce_token_transport B _ h1 hb1 he, h2,
        List.range_succ, List.map_append]
      rfl

/-- From a running state whose budget `n` more tokens use up, with a greedy
choice that is never the end-of-sequence id before that: any longer run emits the
`n` token events, then one finished event, and stays invalid and dirty. -/
theorem run_finishing (B : Backend β) (st : State β)
    (hrun : st.currentTask.taskState = TASK_STATE_RUNNING) (n : Nat)
    (hb : st.currentTask.tokensGenerated + n = st.currentTask.maxNewTokens)
    (hne : ∀ k, k < n → nextToken B (run B k st).2 ≠ B.token_eos) (m : Nat) (hm : n < m) :
    transportEvents (run B m st).1 =
      (List.range n).map (fun k =>
        Event.token st.currentTask.taskID (B.token_to_str (nextToken B (run B k st).2)))
        ++ [Event.finish st.currentTask.taskID] ∧
    (run B m st).2.currentTask.taskState = TASK_STATE_INVALID ∧
    (run B m st).2.ctxDirty = true := by
  obtain ⟨h1, h2, h3, h4, h5⟩ := run_generating B st hrun n (by omega) hne
  have hfin := gsDoOnce_budget B (run B n st).2 h1 (by rw [h3, h4]; omega)
  have hidle : (gsDoOnce B (run B n st).2).state.currentTask.taskState
      ≠ TASK_STATE_RUNNING := by
    rw [hfin]
    show (0 : Int) ≠ 1
    decide
  obtain ⟨j, rfl⟩ : ∃ j, m = n + 1 + j := ⟨m - (n + 1), by omega⟩
  rw [run_add B (n + 1) j st, run_succ_last B n st]
  simp only []
  rw [run_not_running B _ hidle j]
  simp only [List.append_nil]
  refine ⟨?_, ?_, ?_⟩
  · rw [transportEvents_append, h5, hfin, h2]
    rfl
  · rw [hfin]
  · rw [hfin]

/-- C7: after a successful gsAddTask with maxNewTokens = N ≥ 0, if the greedy choice is
not the end-of-sequence id in any of the first N calls, then the first m ≤ N calls of
gsDoOnce emit exactly m token events for the task id and leave the task running, and
every run of more than N calls has emitted exactly those N token events followed by
exactly one finished event and nothing else, with taskState = INVALID and
ctxDirty = true; rolls during the run change none of this. -/
theorem generation_budget_exact (B : Backend β) (id : Nat) (system history : String)
    (N : Nat) (temperature topP : Int) (st : State β)
    (hC : (0 : Int) < 2048 - 300 - ((B.tokenize system true).length : Int))
    (hne : ∀ k, k < N →
      nextToken B (run B k (gsAddTask B id system history N temperature topP st).state).2
        ≠ B.token_eos) :
    (gsAddTask B id system history N temperature topP st).ret = 0 ∧
    (∀ m, m ≤ N →
      transportEvents
          (run B m (gsAddTask B id system history N temperature topP st).state).1 =
        (List.range m).map (fun k => Event.token id (B.token_to_str (nextToken B
          (run B k (gsAddTask B id system history N temperature topP st).state).2))) ∧
      (run B m (gsAddTask B id system history N temperature topP st).state).2.currentTask.taskState
        = TASK_STATE_RUNNING) ∧
    (∀ m, N < m →
      transportEvents
          (run B m (gsAddTask B id system history N temperature topP st).state).1 =
        (List.range N).map (fun k => Event.token id (B.token_to_str (nextToken B
          (run B k (gsAddTask B id system history N temperature topP st).state).2)))
          ++ [Event.finish id] ∧
      (run B m (gsAddTask B id system history N temperature topP st).state).2.currentTask.taskState
        = TASK_STATE_INVALID ∧
      (run B m (gsAddTask B id system history N temperature topP st).state).2.ctxDirty = true) := by
  have hS : (B.tokenize system true).length < 2048 - 300 := by omega
  have hadd := gsAddTask_ok B id system history N temperature topP st hS
  simp only [] at hadd
  generalize gsAddTask B id system history N temperature topP st = r at hadd hne ⊢
  have hrun : r.state.currentTask.taskState = TASK_STATE_RUNNING := by rw [hadd]
  have hid : r.state.currentTask.taskID = id := by rw [hadd]
  have hgen : r.state.currentTask.tokensGenerated = 0 := by rw [hadd]
  have hmax : r.state.currentTask.maxNewTokens = N := by rw [hadd]
  refine ⟨by rw [hadd], ?_, ?_⟩
  · intro m hm
    obtain ⟨h1, _, _, _, h5⟩ := run_generating B r.state hrun m
      (by rw [hgen, hmax]; omega) (fun k hk => hne k (by omega))
    rw [hid] at h5
    exact ⟨h5, h1⟩
  · intro m hm
    have h := run_finishing B r.state hrun N (by rw [hgen, hmax]; simp) hne m hm
    rw [hid] at h
    exact h

/-- A concrete run: system "ab", history "xyz", budget 3 on the initial state. -/
theorem generation_budget_exact_witness :
    (0 : Int) < 2048 - 300 - ((toyBackend.tokenize "ab" true).length : Int) ∧
    (∀ k, k < 3 →
      nextToken toyBackend
          (run toyBackend k (gsAddTask toyBackend 7 "ab" "xyz" (3 : Nat) 100 100
            (initState 0)).state).2
        ≠ toyBackend.token_eos) ∧
    (gsAddTask toyBackend 7 "ab" "xyz" (3 : Nat) 100 100 (initState 0)).ret = 0 ∧
    (run toyBackend 4 (gsAddTask toyBackend 7 "ab" "xyz" (3 : Nat) 100 100
      (initState 0)).state).2.currentTask.taskState = TASK_STATE_INVALID :=
  ⟨by decide, fun _ _ => by show (9 : Int) ≠ 2; decide,
    (generation_budget_exact toyBackend 7 "ab" "xyz" 3 100 100 (initState 0) (by decide)
      (fun _ _ => by show (9 : Int) ≠ 2; decide)).1,
    ((generation_budget_exact toyBackend 7 "ab" "xyz" 3 100 100 (initState 0) (by decide)
      (fun _ _ => by show (9 : Int) ≠ 2; decide)).2.2 4 (by decide)).2.1⟩

theorem reachable_run (B : Backend β) (st : State β) (h : Reachable B st) :
    ∀ n : Nat, Reachable B (run B n st).2 := by
  intro n
  induction n with
  | zero => exact h
  | succ k ih =>
    rw [run_succ_last]
    exact Reachable.doOnce ih

/-- Below the roll threshold, with budget left and no end-of-sequence choice, every
call appends one token and leaves the cells already in use alone. -/
theorem run_below_threshold (B : Backend β) (st : State β)
    (hrun : st.currentTask.taskState = TASK_STATE_RUNNING) :
    ∀ m : Nat, st.currentTask.tokensGenerated + m ≤ st.currentTask.maxNewTokens →
      st.currentTask.workLen + m ≤ 2000 →
      (∀ k, k < m → nextToken B (run B k st).2 ≠ B.token_eos) →
      (run B m st).2.currentTask.workLen = st.currentTask.workLen + m ∧
      (run B m st).2.currentTask.systemPromptLen = st.currentTask.systemPromptLen ∧
      ∀ i, i < st.currentTask.workLen →
        (run B m st).2.currentTask.workTok i = st.currentTask.workTok i := by
  intro m
  induction m with
  | zero =>
    intro _ _ _
    exact ⟨rfl, rfl, fun _ _ => rfl⟩
  | succ j ih =>
    intro hb hw hne
    obtain ⟨h1, h2, h3⟩ := ih (by push_cast at hb; omega) (by omega)
      (fun k hk => hne k (by omega))
    obtain ⟨g1, _, g3, g4, _⟩ := run_generating B st hrun j (by push_cast at hb; omega)
      (fun k hk => hne k (by omega))
    have hb1 : (run B j st).2.currentTask.tokensGenerated
        < (run B j st).2.currentTask.maxNewTokens := by
      rw [g3, g4]; push_cast at hb; omega
    have ht := gsDoOnce_token_task B (run B j st).2 g1 hb1 (hne j (by omega))
    have hroll : rollPhase (run B j st).2 = (run B j st).2 :=
      rollPhase_of_lt _ (by rw [h1]; omega)
    rw [hroll] at ht
    rw [run_succ_last]
    refine ⟨?_, ?_, ?_⟩
    · show (gsDoOnce B (run B j st).2).state.currentTask.workLen = _
      rw [ht.2.2]
      show (run B j st).2.currentTask.workLen + 1 = _
      rw [h1]; omega
    · show (gsDoOnce B (run B j st).2).state.currentTask.systemPromptLen = _
      rw [ht.2.2]
      exact h2
    · intro i hi
      show (gsDoOnce B (run B j st).2).state.currentTask.workTok i = _
      rw [ht.2.2]
      show Function.update _ _ _ i = _
      rw [Function.update_noteq (by rw [h1]; omega)]
      exact h3 i hi

theorem getD_replicate_of_lt (n i : Nat) (a : llama_token) (h : i < n) :
    (List.replicate n a).getD i 0 = a := by
  rw [List.getD_eq_getElem _ _ (by simpa using h)]
  exact List.getElem_replicate _ _

theorem longSystemBackend_nextToken (st : State Nat) :
    nextToken longSystemBackend st = 9 := rfl

theorem longSystemBackend_never_eos (st : State Nat) :
    nextToken longSystemBackend st ≠ longSystemBackend.token_eos := by
  show (9 : Int) ≠ 2
  decide

/-- What `longSystemState` is: a reachable running task whose 1025 system tokens
are all 5, grown to the roll threshold with budget left. -/
theorem longSystemState_facts :
    Reachable longSystemBackend longSystemState ∧
    longSystemState.currentTask.taskState = TASK_STATE_RUNNING ∧
    longSystemState.currentTask.tokensGenerated = 252 ∧
    longSystemState.currentTask.maxNewTokens = 1000 ∧
    longSystemState.currentTask.workLen = 2000 ∧
    longSystemState.currentTask.systemPromptLen = 1025 ∧
    longSystemState.currentTask.workTok 1024 = 5 := by
  have hS : (longSystemBackend.tokenize "s" true).length < 2048 - 300 := by
    show (List.replicate 1025 (5 : Int)).length < 2048 - 300
    rw [List.length_replicate]
    decide
  have hadd := gsAddTask_ok longSystemBackend 7 "s" "h" 1000 100 100 (initState 0) hS
  simp only [] at hadd
  have hSl : (longSystemBackend.tokenize "s" true).length = 1025 := by
    show (List.replicate 1025 (5 : Int)).length = 1025
    rw [List.length_replicate]
  have hHl : (longSystemBackend.tokenize "h" false).length = 723 := by
    show (List.replicate 723 (6 : Int)).length = 723
    rw [List.length_replicate]
  have hmin : min (2048 - 300 - 1025) 723 = 723 := by decide
  rw [hSl, hHl, hmin] at hadd
  have hSeq : longSystemBackend.tokenize "s" true = List.replicate 1025 5 := rfl
  have hreach0 := Reachable.addTask (B := longSystemBackend) 7 "s" "h" 1000 100 100
    (Reachable.init (B := longSystemBackend) 0)
  unfold longSystemState
  generalize gsAddTask longSystemBackend 7 "s" "h" 1000 100 100 (initState 0) = r
    at hadd hreach0
  have hrun : r.state.currentTask.taskState = TASK_STATE_RUNNING := by rw [hadd]
  have hgen : r.state.currentTask.tokensGenerated = 0 := by rw [hadd]
  have hmax : r.state.currentTask.maxNewTokens = 1000 := by rw [hadd]
  have hlen : r.state.currentTask.workLen = 1748 := by rw [hadd]
  have hsys : r.state.currentTask.systemPromptLen = 1025 := by rw [hadd]
  have hcell : r.state.currentTask.workTok 1024 = 5 := by
    rw [hadd]
    simp only [memcpyVec]
    rw [if_neg (by omega), if_pos (by omega), hSeq]
    exact getD_replicate_of_lt _ _ _ (by omega)
  obtain ⟨g1, _, g3, g4, _⟩ := run_generating longSystemBackend r.state hrun 252
    (by rw [hgen, hmax]; decide) (fun k _ => longSystemBackend_never_eos _)
  obtain ⟨w1, w2, w3⟩ := run_below_threshold longSystemBackend r.state hrun 252
    (by rw [hgen, hmax]; decide) (by rw [hlen]) (fun k _ => longSystemBackend_never_eos _)
  refine ⟨reachable_run _ _ hreach0 252, g1, ?_, ?_, ?_, ?_, ?_⟩
  · rw [g4, hgen]; rfl
  · rw [g3, hmax]
  · rw [w1, hlen]
  · rw [w2, hsys]
  · rw [w3 1024 (by rw [hlen]; decide), hcell]

end runs

/-! ## The system tokens across a roll -/

section systemTokens

variable {β : Type}

theorem rollContext_workTok_below (t : Task) (i : Nat) (hi : i < t.systemPromptLen) :
    (rollContext t).workTok i = t.workTok i := by
  unfold rollContext
  simp only []
  split
  · simp only [memmove]
    rw [if_neg (by omega)]
  · rfl

/-- With at most 1024 system tokens a call that rolls leaves them in place. -/
theorem roll_keeps_system_tokens_of_le (B : Backend β) (st : State β)
    (hrun : st.currentTask.taskState = TASK_STATE_RUNNING)
    (hlen : 2000 ≤ st.currentTask.workLen)
    (hsys : st.currentTask.systemPromptLen ≤ 1024) (i : Nat)
    (hi : i < st.currentTask.systemPromptLen) :
    (gsDoOnce B st).state.currentTask.workTok i = st.currentTask.workTok i := by
  rw [gsDoOnce_workTok B st hrun i (by rw [rollPhase_workLen_of_ge st hlen]; omega),
    rollPhase_of_ge st hlen]
  exact rollContext_workTok_below _ i hi

/-- C5, the code at a failing input: after gsAddTask with 1025 system tokens (all 5),
723 history tokens and maxNewTokens = 1000, and 252 calls of gsDoOnce, the task is
running with workLen = 2000 and systemPromptLen = 1025 ≤ workLen; the next call rolls
and returns with workTok[1024] = 9, the sampled token, where the system token 5 was:
workTok[0:systemPromptLen] is not preserved. -/
theorem roll_overwrites_system_token :
    Reachable longSystemBackend longSystemState ∧
    longSystemState.currentTask.taskState = TASK_STATE_RUNNING ∧
    2000 ≤ longSystemState.currentTask.workLen ∧
    longSystemState.currentTask.systemPromptLen ≤ longSystemState.currentTask.workLen ∧
    1024 < longSystemState.currentTask.systemPromptLen ∧
    longSystemState.currentTask.workTok 1024 = 5 ∧
    (gsDoOnce longSystemBackend longSystemState).state.currentTask.workTok 1024 = 9 ∧
    (gsDoOnce longSystemBackend longSystemState).state.currentTask.workTok 1024
      ≠ longSystemState.currentTask.workTok 1024 := by
  obtain ⟨h1, h2, h3, h4, h5, h6, h7⟩ := longSystemState_facts
  have hw := rollPhase_workLen_of_ge longSystemState (by rw [h5])
  have h9 : (gsDoOnce longSystemBackend longSystemState).state.currentTask.workTok 1024 = 9 := by
    have hcell := (gsDoOnce_token_fields longSystemBackend longSystemState h2
      (by rw [h3, h4]; decide) (longSystemBackend_never_eos _)).1
    rw [hw] at hcell
    rw [hcell]
    exact longSystemBackend_nextToken _
  refine ⟨h1, h2, by rw [h5], by rw [h5, h6]; decide, by rw [h6]; decide, h7, h9, ?_⟩
  rw [h9, h7]
  decide

end systemTokens

/-! ## The clean cache in reachable states -/

section reachable

variable {β : Type}

theorem reconcile_mirrors (B : Backend β) (st : State β) :
    (reconcile B st).2.ctxConsumedTokens = (reconcile B st).2.currentTask.workLen ∧
    ∀ i, i < (reconcile B st).2.currentTask.workLen →
      (reconcile B st).2.ctxTok i = (reconcile B st).2.currentTask.workTok i := by
  refine ⟨rfl, ?_⟩
  intro i hi
  show memcpyArr st.ctxTok st.currentTask.workTok st.currentTask.workLen i = _
  have hi1 : i < st.currentTask.workLen := hi
  simp only [memcpyArr]
  rw [if_pos hi1]
  rfl

theorem reconcilePhase_mirrors (B : Backend β) (st : State β)
    (h : st.ctxDirty = false →
      st.ctxConsumedTokens = st.currentTask.workLen ∧
      ∀ i, i < st.currentTask.workLen → st.ctxTok i = st.currentTask.workTok i) :
    (reconcilePhase B st).2.ctxConsumedTokens = st.currentTask.workLen ∧
    ∀ i, i < st.currentTask.workLen →
      (reconcilePhase B st).2.ctxTok i = st.currentTask.workTok i := by
  by_cases hd : st.ctxDirty = true
  · rw [reconcilePhase_of_dirty B st hd]
    exact reconcile_mirrors B st
  · have hd1 : st.ctxDirty = false := by simpa using hd
    rw [reconcilePhase_of_clean B st hd1]
    exact h hd1

theorem rollPhase_mirrors (st : State β)
    (h : st.ctxDirty = false →
      st.ctxConsumedTokens = st.currentTask.workLen ∧
      ∀ i, i < st.currentTask.workLen → st.ctxTok i = st.currentTask.workTok i) :
    (rollPhase st).ctxDirty = false →
      (rollPhase st).ctxConsumedTokens = (rollPhase st).currentTask.workLen ∧
      ∀ i, i < (rollPhase st).currentTask.workLen →
        (rollPhase st).ctxTok i = (rollPhase st).currentTask.workTok i := by
  by_cases hl : 2000 ≤ st.currentTask.workLen
  · rw [rollPhase_of_ge st hl]
    intro hc
    exact absurd hc (by simp)
  · rw [rollPhase_of_lt st (by omega)]
    exact h

/-- One call of gsDoOnce keeps the property that a clean cache mirrors the working
sequence: same length, same cells. -/
theorem gsDoOnce_clean_mirrors (B : Backend β) (st : State β)
    (h : st.ctxDirty = false →
      st.ctxConsumedTokens = st.currentTask.workLen ∧
      ∀ i, i < st.currentTask.workLen → st.ctxTok i = st.currentTask.workTok i) :
    (gsDoOnce B st).state.ctxDirty = false →
      (gsDoOnce B st).state.ctxConsumedTokens = (gsDoOnce B st).state.currentTask.workLen ∧
      ∀ i, i < (gsDoOnce B st).state.currentTask.workLen →
        (gsDoOnce B st).state.ctxTok i = (gsDoOnce B st).state.currentTask.workTok i := by
  by_cases hrun : st.currentTask.taskState = TASK_STATE_RUNNING
  · by_cases hb : st.currentTask.tokensGenerated < st.currentTask.maxNewTokens
    · by_cases he : nextToken B st = B.token_eos
      · rw [gsDoOnce_eos B st hrun hb he]
        intro hc
        exact absurd hc (by simp)
      · have hm := reconcilePhase_mirrors B (rollPhase st) (rollPhase_mirrors st h)
        by_cases hc : (reconcilePhase B (rollPhase st)).2.ctxConsumedTokens < 2048
        · rw [gsDoOnce_token B st hrun hb he hc]
          intro _
          obtain ⟨m1, m2⟩ := hm
          refine ⟨?_, ?_⟩
          · show _ + 1 = _ + 1
            rw [m1]
          · intro i hi
            have hi1 : i < (rollPhase st).currentTask.workLen + 1 := hi
            show Function.update _ _ _ i = Function.update _ _ _ i
            rw [m1]
            by_cases hi2 : i = (rollPhase st).currentTask.workLen
            · rw [hi2, Function.update_same, Function.update_same]
            · rw [Function.update_noteq hi2, Function.update_noteq hi2]
              exact m2 i (by omega)
        · rw [gsDoOnce_token_full B st hrun hb he (by omega)]
          intro hc1
          exact absurd hc1 (by simp)
    · rw [gsDoOnce_budget B st hrun (by omega)]
      intro hc
      exact absurd hc (by simp)
  · rw [gsDoOnce_not_running B st hrun]
    exact h

/-- In every reachable state a clean cache mirrors the working sequence. -/
theorem reachable_clean_mirrors (B : Backend β) (st : State β) (h : Reachable B st) :
    st.ctxDirty = false →
      st.ctxConsumedTokens = st.currentTask.workLen ∧
      ∀ i, i < st.currentTask.workLen → st.ctxTok i = st.currentTask.workTok i := by
  induction h with
  | init c =>
    intro hc
    exact absurd hc (by simp [initState])
  | @addTask s id system history maxNewTokens temperature topP _ ih =>
    by_cases hS : (B.tokenize system true).length < 2048 - 300
    · rw [gsAddTask_ok B id system history maxNewTokens temperature topP s hS]
      intro hc
      exact absurd hc (by simp)
    · rw [gsAddTask_fail B id system history maxNewTokens temperature topP s (by omega)]
      exact ih
  | doOnce _ ih => exact gsDoOnce_clean_mirrors B _ ih
  | @cancelTask s id _ ih =>
    unfold gsCancelTask
    split
    · intro hc
      exact absurd hc (by simp)
    · exact ih

/-! ## Claims on the sampling step -/

/-- C8: in a reachable state with a running task, workLen = L < 2000 and
tokensGenerated < maxNewTokens, if the greedy choice t is not the end-of-sequence id,
gsDoOnce returns 1 with workTok[L] = t, workLen = L + 1, tokensGenerated one higher and
workTok[0:L] unchanged; its events are the evaluation requests of the reconciliation
followed by exactly one token event (task id, text of t) and exactly one evaluation of
the single token t at start position L; t is appended to the cache (ctxTok[L] = t,
ctxConsumedTokens = L + 1, cache clean) and the task is still running. -/
theorem sampling_step_appends (B : Backend β) (st : State β) (hreach : Reachable B st)
    (hrun : st.currentTask.taskState = TASK_STATE_RUNNING)
    (hlen : st.currentTask.workLen < 2000)
    (hb : st.currentTask.tokensGenerated < st.currentTask.maxNewTokens)
    (he : nextToken B st ≠ B.token_eos) :
    (gsDoOnce B st).ret = 1 ∧
    (gsDoOnce B st).state.currentTask.workTok st.currentTask.workLen = nextToken B st ∧
    (gsDoOnce B st).state.currentTask.workLen = st.currentTask.workLen + 1 ∧
    (gsDoOnce B st).state.currentTask.tokensGenerated = st.currentTask.tokensGenerated + 1 ∧
    (∀ i, i < st.currentTask.workLen →
      (gsDoOnce B st).state.currentTask.workTok i = st.currentTask.workTok i) ∧
    (gsDoOnce B st).events = (reconcilePhase B st).1 ++
      [Event.token st.currentTask.taskID (B.token_to_str (nextToken B st)),
       Event.eval [nextToken B st] st.currentTask.workLen] ∧
    (∀ e ∈ (reconcilePhase B st).1,
      ∃ toks pos, e = Event.eval toks pos ∧ pos < st.currentTask.workLen) ∧
    transportEvents (gsDoOnce B st).events
      = [Event.token st.currentTask.taskID (B.token_to_str (nextToken B st))] ∧
    (gsDoOnce B st).state.ctxTok st.currentTask.workLen = nextToken B st ∧
    (gsDoOnce B st).state.ctxConsumedTokens = st.currentTask.workLen + 1 ∧
    (gsDoOnce B st).state.ctxDirty = false ∧
    (gsDoOnce B st).state.currentTask.taskState = TASK_STATE_RUNNING := by
  have hroll : rollPhase st = st := rollPhase_of_lt st hlen
  have hm := (reconcilePhase_mirrors B st (reachable_clean_mirrors B st hreach)).1
  have hc : (reconcilePhase B (rollPhase st)).2.ctxConsumedTokens < 2048 := by
    rw [hroll, hm]; omega
  have htr := gsDoOnce_token_transport B st hrun hb he
  have h := gsDoOnce_token B st hrun hb he hc
  rw [hroll] at h
  rw [hm] at h
  refine ⟨?_, ?_, ?_, ?_, ?_, ?_, reconcilePhase_events_eval B st, htr, ?_, ?_, ?_, ?_⟩
  · rw [h]
  · rw [h]; exact Function.update_same _ _ _
  · rw [h]
  · rw [h]
  · intro i hi
    rw [h]
    exact Function.update_noteq (by omega) _ _
  · rw [h]
  · rw [h]; exact Function.update_same _ _ _
  · rw [h]
  · rw [h]
  · rw [h]; exact hrun

/-- C8 on the task just added to the initial state (system "ab", history "xyz",
budget 5): the first call appends the token 9 at position 6. -/
theorem sampling_step_appends_witness :
    Reachable toyBackend (gsAddTask toyBackend 7 "ab" "xyz" 5 100 100 (initState 0)).state ∧
    (gsAddTask toyBackend 7 "ab" "xyz" 5 100 100 (initState 0)).state.currentTask.taskState
      = TASK_STATE_RUNNING ∧
    (gsAddTask toyBackend 7 "ab" "xyz" 5 100 100 (initState 0)).state.currentTask.workLen
      < 2000 ∧
    (gsDoOnce toyBackend
      (gsAddTask toyBackend 7 "ab" "xyz" 5 100 100 (initState 0)).state).ret = 1 :=
  ⟨Reachable.addTask 7 "ab" "xyz" 5 100 100 (Reachable.init 0), rfl, by decide,
    (sampling_step_appends toyBackend
      (gsAddTask toyBackend 7 "ab" "xyz" 5 100 100 (initState 0)).state
      (Reachable.addTask 7 "ab" "xyz" 5 100 100 (Reachable.init 0)) rfl (by decide)
      (by decide) (by show (9 : Int) ≠ 2; decide)).1⟩

/-- C9: for a running task with tokensGenerated < maxNewTokens, if the greedy choice
is the end-of-sequence id, gsDoOnce returns 0; its events are the evaluation requests
of the reconciliation followed by exactly one finished event, with no token event and
no evaluation at the position after the working sequence; the context is the one the
reconciliation left; workTok, workLen and tokensGenerated are as the roll block left
them (as before the call when workLen < 2000); taskState = INVALID and
ctxDirty = true. -/
theorem eos_finishes_without_append (B : Backend β) (st : State β)
    (hrun : st.currentTask.taskState = TASK_STATE_RUNNING)
    (hb : st.currentTask.tokensGenerated < st.currentTask.maxNewTokens)
    (he : nextToken B st = B.token_eos) :
    (gsDoOnce B st).ret = 0 ∧
    (gsDoOnce B st).events
      = (reconcilePhase B (rollPhase st)).1 ++ [Event.finish st.currentTask.taskID] ∧
    (∀ e ∈ (reconcilePhase B (rollPhase st)).1,
      ∃ toks pos, e = Event.eval toks pos ∧ pos < (rollPhase st).currentTask.workLen) ∧
    transportEvents (gsDoOnce B st).events = [Event.finish st.currentTask.taskID] ∧
    (∀ toks, Event.eval toks (rollPhase st).currentTask.workLen ∉ (gsDoOnce B st).events) ∧
    (gsDoOnce B st).state.ctx = (reconcilePhase B (rollPhase st)).2.ctx ∧
    (gsDoOnce B st).state.currentTask.workTok = (rollPhase st).currentTask.workTok ∧
    (gsDoOnce B st).state.currentTask.workLen = (rollPhase st).currentTask.workLen ∧
    (gsDoOnce B st).state.currentTask.tokensGenerated = st.currentTask.tokensGenerated ∧
    (st.currentTask.workLen < 2000 →
      (gsDoOnce B st).state.currentTask.workTok = st.currentTask.workTok ∧
      (gsDoOnce B st).state.currentTask.workLen = st.currentTask.workLen) ∧
    (gsDoOnce B st).state.currentTask.taskState = TASK_STATE_INVALID ∧
    (gsDoOnce B st).state.ctxDirty = true := by
  have h := gsDoOnce_eos B st hrun hb he
  have hev := reconcilePhase_events_eval B (rollPhase st)
  refine ⟨?_, ?_, hev, ?_, ?_, ?_, ?_, ?_, ?_, ?_, ?_, ?_⟩
  · rw [h]
  · rw [h]
  · rw [h]
    show transportEvents (_ ++ _) = _
    rw [transportEvents_append, transportEvents_reconcilePhase]
    rfl
  · intro toks hmem
    rw [h] at hmem
    have hmem1 : Event.eval toks (rollPhase st).currentTask.workLen
        ∈ (reconcilePhase B (rollPhase st)).1 ++ [Event.finish st.currentTask.taskID] := hmem
    rcases List.mem_append.mp hmem1 with h1 | h1
    · obtain ⟨toks1, pos, heq, hpos⟩ := hev _ h1
      injection heq with _ hp
      omega
    · simp at h1
  · rw [h]
  · rw [h]
  · rw [h]
  · rw [h]
    exact rollPhase_tokensGenerated st
  · intro hlt
    rw [h, rollPhase_of_lt st hlt]
    exact ⟨rfl, rfl⟩
  · rw [h]
  · rw [h]

/-- C9 on the task just added to the initial state, with a backend whose first
greedy choice already is its end-of-sequence id. -/
theorem eos_finishes_without_append_witness :
    (gsAddTask eosBackend 7 "ab" "xyz" 5 100 100 (initState 0)).state.currentTask.taskState
      = TASK_STATE_RUNNING ∧
    nextToken eosBackend (gsAddTask eosBackend 7 "ab" "xyz" 5 100 100 (initState 0)).state
      = eosBackend.token_eos ∧
    (gsDoOnce eosBackend
      (gsAddTask eosBackend 7 "ab" "xyz" 5 100 100 (initState 0)).state).ret = 0 :=
  ⟨rfl, rfl,
    (eos_finishes_without_append eosBackend
      (gsAddTask eosBackend 7 "ab" "xyz" 5 100 100 (initState 0)).state rfl (by decide)
      rfl).1⟩

/-! ## Claims on gsCancelTask -/

/-- C10, refuted as stated: in the initial state, where no task was ever added,
gsCancelTask(0) finds currentTask.taskID = 0, returns 0 and not -1. -/
theorem cancel_zero_initially_succeeds :
    (initState (0 : Nat)).currentTask.taskState ≠ TASK_STATE_RUNNING ∧
    (gsCancelTask 0 (initState (0 : Nat))).ret = 0 ∧
    (gsCancelTask 0 (initState (0 : Nat))).ret ≠ -1 := by
  refine ⟨by decide, rfl, by decide⟩

/-- C10, amended: for every id that differs from the stored currentTask.taskID, whether
or not a task is running, gsCancelTask(id) returns -1 and leaves currentTask and the
cache state unchanged; in the initial state, where the stored taskID is 0, these are
the ids other than 0. -/
theorem cancel_mismatch_no_mutation (id : Nat) (st : State β)
    (h : st.currentTask.taskID ≠ id) :
    (gsCancelTask id st).ret = -1 ∧ (gsCancelTask id st).events = [] ∧
    (gsCancelTask id st).state = st := by
  unfold gsCancelTask
  rw [if_neg h]
  exact ⟨rfl, rfl, rfl⟩

/-- The amended C10 at id 5 in the initial state. -/
theorem cancel_mismatch_no_mutation_witness :
    (initState (0 : Nat)).currentTask.taskID ≠ 5 ∧
    (gsCancelTask 5 (initState (0 : Nat))).ret = -1 ∧
    (gsCancelTask 5 (initState (0 : Nat))).state = initState 0 :=
  ⟨by decide,
    (cancel_mismatch_no_mutation 5 (initState (0 : Nat)) (by decide)).1,
    (cancel_mismatch_no_mutation 5 (initState (0 : Nat)) (by decide)).2.2⟩

/-- A cancel whose id equals the stored taskID is accepted whatever the task state. -/
theorem cancel_match_ret (id : Nat) (st : State β) (h : st.currentTask.taskID = id) :
    (gsCancelTask id st).ret = 0 := by
  unfold gsCancelTask
  rw [if_pos h]

end reachable

/-! ## Sequences of exported calls -/

section callSequences

variable {β : Type}

theorem reachable_call (B : Backend β) (c : Call) (st : State β) (h : Reachable B st) :
    Reachable B (call B c st).state := by
  cases c with
  | addTask id system history maxNewTokens temperature topP =>
    exact Reachable.addTask id system history maxNewTokens temperature topP h
  | doOnce => exact Reachable.doOnce h
  | cancelTask id => exact Reachable.cancelTask id h

theorem reachable_calls (B : Backend β) :
    ∀ (cs : List Call) (st : State β), Reachable B st → Reachable B (calls B cs st).2 := by
  intro cs
  induction cs with
  | nil => intro st h; exact h
  | cons c cs ih =>
    intro st h
    exact ih (call B c st).state (reachable_call B c st h)

/-- While no task is running, calls other than a successful add emit nothing and
leave the globals alone, apart from a cancel that sets the dirty flag again. -/
theorem calls_not_running (B : Backend β) :
    ∀ (cs : List Call) (st : State β),
      st.currentTask.taskState ≠ TASK_STATE_RUNNING → st.ctxDirty = true →
      (∀ c ∈ cs, ∀ id system history maxNewTokens temperature topP,
        c = Call.addTask id system history maxNewTokens temperature topP →
        2048 - 300 ≤ (B.tokenize system true).length) →
      (calls B cs st).1 = [] ∧
      (calls B cs st).2.currentTask.taskState ≠ TASK_STATE_RUNNING ∧
      (calls B cs st).2.ctxDirty = true := by
  intro cs
  induction cs with
  | nil => intro st h hd _; exact ⟨rfl, h, hd⟩
  | cons c cs ih =>
    intro st h hd hadd
    have hrest : ∀ c1 ∈ cs, ∀ id system history maxNewTokens temperature topP,
        c1 = Call.addTask id system history maxNewTokens temperature topP →
        2048 - 300 ≤ (B.tokenize system true).length :=
      fun c1 hc1 => hadd c1 (List.mem_cons_of_mem _ hc1)
    have hstep : (call B c st).events = [] ∧
        (call B c st).state.currentTask.taskState ≠ TASK_STATE_RUNNING ∧
        (call B c st).state.ctxDirty = true := by
      cases c with
      | addTask id system history maxNewTokens temperature topP =>
        have hfail := hadd _ (List.mem_cons_self _ _) id system history maxNewTokens
          temperature topP rfl
        have e : call B (Call.addTask id system history maxNewTokens temperature topP) st
            = gsAddTask B id system history maxNewTokens temperature topP st := rfl
        rw [e, gsAddTask_fail B id system history maxNewTokens temperature topP st hfail]
        exact ⟨rfl, h, hd⟩
      | doOnce =>
        have e : call B Call.doOnce st = gsDoOnce B st := rfl
        rw [e, gsDoOnce_not_running B st h]
        exact ⟨rfl, h, hd⟩
      | cancelTask id =>
        have e : call B (Call.cancelTask id) st = gsCancelTask id st := rfl
        rw [e]
        unfold gsCancelTask
        split
        · refine ⟨rfl, ?_, rfl⟩
          show (0 : Int) ≠ 1
          decide
        · exact ⟨rfl, h, hd⟩
    obtain ⟨r1, r2, r3⟩ := ih (call B c st).state hstep.2.1 hstep.2.2 hrest
    refine ⟨?_, r2, r3⟩
    show (call B c st).events ++ (calls B cs (call B c st).state).1 = []
    rw [hstep.1, r1]
    rfl

end callSequences

/-! ## Claims on cancellation and idle steps -/

section idle

variable {β : Type}

/-- C11: for a running task with id i, gsCancelTask(i) returns 0, sets
taskState = INVALID and ctxDirty = true, emits nothing and changes no other field of
the task or the cache; from then on every sequence of exported calls that contains no
successful gsAddTask emits no event at all (no token event, no finished event, no
evaluation request) and leaves the task invalid. -/
theorem cancel_current_is_silent (B : Backend β) (i : Nat) (st : State β)
    (_hrun : st.currentTask.taskState = TASK_STATE_RUNNING)
    (hid : st.currentTask.taskID = i) :
    (gsCancelTask i st).ret = 0 ∧
    (gsCancelTask i st).events = [] ∧
    (gsCancelTask i st).state =
      { st with
        currentTask := { st.currentTask with taskState := TASK_STATE_INVALID }
        ctxDirty := true } ∧
    ∀ cs : List Call,
      (∀ c ∈ cs, ∀ id system history maxNewTokens temperature topP,
        c = Call.addTask id system history maxNewTokens temperature topP →
        2048 - 300 ≤ (B.tokenize system true).length) →
      (calls B cs (gsCancelTask i st).state).1 = [] ∧
      (calls B cs (gsCancelTask i st).state).2.currentTask.taskState
        ≠ TASK_STATE_RUNNING := by
  have h : gsCancelTask i st =
      { ret := 0
        events := []
        state :=
          { st with
            currentTask := { st.currentTask with taskState := TASK_STATE_INVALID }
            ctxDirty := true } } := by
    unfold gsCancelTask
    rw [if_pos hid]
  rw [h]
  refine ⟨rfl, rfl, rfl, ?_⟩
  intro cs hcs
  have hres := calls_not_running B cs
    { st with
      currentTask := { st.currentTask with taskState := TASK_STATE_INVALID }
      ctxDirty := true }
    (by show (0 : Int) ≠ 1; decide) rfl hcs
  exact ⟨hres.1, hres.2.1⟩

/-- C11 on the task just added to the initial state: cancelled, then stepped twice
with a cancel in between. -/
theorem cancel_current_is_silent_witness :
    (gsAddTask toyBackend 7 "ab" "xyz" 5 100 100 (initState 0)).state.currentTask.taskState
      = TASK_STATE_RUNNING ∧
    (gsAddTask toyBackend 7 "ab" "xyz" 5 100 100 (initState 0)).state.currentTask.taskID = 7 ∧
    (gsCancelTask 7 (gsAddTask toyBackend 7 "ab" "xyz" 5 100 100 (initState 0)).state).ret = 0 ∧
    (calls toyBackend [Call.doOnce, Call.cancelTask 7, Call.doOnce]
      (gsCancelTask 7
        (gsAddTask toyBackend 7 "ab" "xyz" 5 100 100 (initState 0)).state).state).1 = [] :=
  ⟨rfl, rfl,
    (cancel_current_is_silent toyBackend 7
      (gsAddTask toyBackend 7 "ab" "xyz" 5 100 100 (initState 0)).state rfl rfl).1,
    ((cancel_current_is_silent toyBackend 7
      (gsAddTask toyBackend 7 "ab" "xyz" 5 100 100 (initState 0)).state rfl rfl).2.2.2
      [Call.doOnce, Call.cancelTask 7, Call.doOnce]
      (by
        intro c hc id system history maxNewTokens temperature topP e
        simp only [List.mem_cons, List.mem_singleton, List.not_mem_nil, or_false] at hc
        rcases hc with rfl | rfl | rfl <;> cases e)).1⟩

/-- C12: when taskState is not RUNNING, any number n of consecutive gsDoOnce calls
emits no event (no token, no finished event, nothing submitted to the backend) and
leaves all globals, currentTask, ctxDirty, ctxTok, ctxConsumedTokens and the llama
context, exactly as before the first call; each of the calls returns 0. -/
theorem idle_steps_are_noops (B : Backend β) (st : State β)
    (h : st.currentTask.taskState ≠ TASK_STATE_RUNNING) (n : Nat) :
    run B n st = ([], st) ∧
    ∀ k, k < n →
      (gsDoOnce B (run B k st).2).ret = 0 ∧
      (gsDoOnce B (run B k st).2).events = [] ∧
      (gsDoOnce B (run B k st).2).state = st := by
  refine ⟨run_not_running B st h n, ?_⟩
  intro k _
  rw [run_not_running B st h k]
  show (gsDoOnce B st).ret = 0 ∧ _
  rw [gsDoOnce_not_running B st h]
  exact ⟨rfl, rfl, rfl⟩

/-- C12 in the initial state, where no task was added yet: three calls. -/
theorem idle_steps_are_noops_witness :
    (initState (0 : Nat)).currentTask.taskState ≠ TASK_STATE_RUNNING ∧
    run toyBackend 3 (initState 0) = ([], initState 0) :=
  ⟨by decide, (idle_steps_are_noops toyBackend (initState 0) (by decide) 3).1⟩

end idle

/-! ## Lengths in reachable states -/

section lengths

variable {β : Type}

/-- A call returns 1 exactly when it got past the budget test and the
end-of-sequence test, that is when it emitted a token. -/
theorem gsDoOnce_ret_one (B : Backend β) (st : State β) (h : (gsDoOnce B st).ret = 1) :
    st.currentTask.taskState = TASK_STATE_RUNNING ∧
    st.currentTask.tokensGenerated < st.currentTask.maxNewTokens ∧
    nextToken B st ≠ B.token_eos := by
  have h01 : (0 : Int) ≠ 1 := by decide
  by_cases hrun : st.currentTask.taskState = TASK_STATE_RUNNING
  · by_cases hb : st.currentTask.tokensGenerated < st.currentTask.maxNewTokens
    · by_cases he : nextToken B st = B.token_eos
      · rw [gsDoOnce_eos B st hrun hb he] at h
        exact absurd h h01
      · exact ⟨hrun, hb, he⟩
    · rw [gsDoOnce_budget B st hrun (by omega)] at h
      exact absurd h h01
  · rw [gsDoOnce_not_running B st hrun] at h
    exact absurd h h01

/-- In a reachable state the value tested against MODEL_MAX_TOKENS after a token
was emitted is the length the roll block left, which is below 2000. -/
theorem reachable_capacity_value (B : Backend β) (st : State β) (h : Reachable B st) :
    (reconcilePhase B (rollPhase st)).2.ctxConsumedTokens
      = (rollPhase st).currentTask.workLen :=
  (reconcilePhase_mirrors B (rollPhase st)
    (rollPhase_mirrors st (reachable_clean_mirrors B st h))).1

/-- In every reachable state the working sequence and the cache hold at most 2000
tokens. -/
theorem reachable_lengths (B : Backend β) (st : State β) (h : Reachable B st) :
    st.currentTask.workLen ≤ 2000 ∧ st.ctxConsumedTokens ≤ 2000 := by
  induction h with
  | init c => exact ⟨Nat.zero_le _, Nat.zero_le _⟩
  | @addTask s id system history maxNewTokens temperature topP _ ih =>
    by_cases hS : (B.tokenize system true).length < 2048 - 300
    · rw [gsAddTask_ok B id system history maxNewTokens temperature topP s hS]
      refine ⟨?_, ih.2⟩
      show (B.tokenize system true).length
        + min (2048 - 300 - (B.tokenize system true).length)
            (B.tokenize history false).length ≤ 2000
      omega
    · rw [gsAddTask_fail B id system history maxNewTokens temperature topP s (by omega)]
      exact ih
  | @doOnce s hs ih =>
    have hroll := rollPhase_workLen_lt s
    have hcap := reachable_capacity_value B s hs
    by_cases hrun : s.currentTask.taskState = TASK_STATE_RUNNING
    · by_cases hb : s.currentTask.tokensGenerated < s.currentTask.maxNewTokens
      · by_cases he : nextToken B s = B.token_eos
        · rw [gsDoOnce_eos B s hrun hb he]
          refine ⟨?_, ?_⟩
          · show (rollPhase s).currentTask.workLen ≤ 2000
            omega
          · show (reconcilePhase B (rollPhase s)).2.ctxConsumedTokens ≤ 2000
            omega
        · rw [gsDoOnce_token B s hrun hb he (by omega)]
          refine ⟨?_, ?_⟩
          · show (rollPhase s).currentTask.workLen + 1 ≤ 2000
            omega
          · show (reconcilePhase B (rollPhase s)).2.ctxConsumedTokens + 1 ≤ 2000
            omega
      · rw [gsDoOnce_budget B s hrun (by omega)]
        refine ⟨?_, ?_⟩
        · show (rollPhase s).currentTask.workLen ≤ 2000
          omega
        · show (rollPhase s).ctxConsumedTokens ≤ 2000
          rw [rollPhase_ctxConsumedTokens]
          exact ih.2
    · rw [gsDoOnce_not_running B s hrun]
      exact ih
  | @cancelTask s id _ ih =>
    unfold gsCancelTask
    split
    · exact ih
    · exact ih

theorem rollContext_workTok_above (t : Task) (i : Nat) (hi : 1024 ≤ i) :
    (rollContext t).workTok i = t.workTok i := by
  unfold rollContext
  simp only []
  split
  · rename_i hpos
    simp only [memmove]
    rw [if_neg]
    simp only [modelContextRollTarget] at hpos ⊢
    omega
  · rfl

theorem rollPhase_workTok_above (st : State β) (i : Nat) (hi : 1024 ≤ i) :
    (rollPhase st).currentTask.workTok i = st.currentTask.workTok i := by
  unfold rollPhase
  split
  · exact rollContext_workTok_above _ i hi
  · rfl

theorem reconcilePhase_ctxTok_above (B : Backend β) (st : State β) (i : Nat)
    (hi : st.currentTask.workLen ≤ i) :
    (reconcilePhase B st).2.ctxTok i = st.ctxTok i := by
  unfold reconcilePhase
  split
  · show memcpyArr st.ctxTok st.currentTask.workTok st.currentTask.workLen i = _
    simp only [memcpyArr]
    rw [if_neg (by omega)]
  · rfl

/-- No call of gsDoOnce, in whatever state, changes a cell at index 2048 or above of
the working array or the cache array. -/
theorem gsDoOnce_writes_in_bounds (B : Backend β) (st : State β) (i : Nat)
    (hi : 2048 ≤ i) :
    (gsDoOnce B st).state.currentTask.workTok i = st.currentTask.workTok i ∧
    (gsDoOnce B st).state.ctxTok i = st.ctxTok i := by
  have hroll := rollPhase_workLen_lt st
  have hrec : (reconcilePhase B (rollPhase st)).2.ctxTok i = st.ctxTok i := by
    rw [reconcilePhase_ctxTok_above B (rollPhase st) i (by omega), rollPhase_ctxTok]
  by_cases hrun : st.currentTask.taskState = TASK_STATE_RUNNING
  · refine ⟨?_, ?_⟩
    · rw [gsDoOnce_workTok B st hrun i (by omega)]
      exact rollPhase_workTok_above st i (by omega)
    · by_cases hb : st.currentTask.tokensGenerated < st.currentTask.maxNewTokens
      · by_cases he : nextToken B st = B.token_eos
        · rw [gsDoOnce_eos B st hrun hb he]
          exact hrec
        · by_cases hc : (reconcilePhase B (rollPhase st)).2.ctxConsumedTokens < 2048
          · rw [gsDoOnce_token B st hrun hb he hc]
            show Function.update _ _ _ i = _
            rw [Function.update_noteq (by omega)]
            exact hrec
          · rw [gsDoOnce_token_full B st hrun hb he (by omega)]
            exact hrec
      · rw [gsDoOnce_budget B st hrun (by omega)]
        show (rollPhase st).ctxTok i = st.ctxTok i
        rw [rollPhase_ctxTok]
  · rw [gsDoOnce_not_running B st hrun]
    exact ⟨rfl, rfl⟩

/-- C13: in every reachable state workLen ≤ 2048 and ctxConsumedTokens ≤ 2048 (both
are natural numbers, and in fact at most 2000); a call of gsDoOnce changes no cell at
index 2048 or above of workTok or ctxTok; and in a call that appends (return value 1)
the write workTok[workLen++] uses the index the roll block left, which is below 2048,
and the write ctxTok[ctxConsumedTokens++] is made, at an index below 2048. -/
theorem buffer_bounds_invariant (B : Backend β) (st : State β) (h : Reachable B st) :
    st.currentTask.workLen ≤ 2048 ∧ st.ctxConsumedTokens ≤ 2048 ∧
    (∀ i, 2048 ≤ i →
      (gsDoOnce B st).state.currentTask.workTok i = st.currentTask.workTok i ∧
      (gsDoOnce B st).state.ctxTok i = st.ctxTok i) ∧
    ((gsDoOnce B st).ret = 1 →
      (rollPhase st).currentTask.workLen < 2048 ∧
      (gsDoOnce B st).state.currentTask.workTok
        = Function.update (rollPhase st).currentTask.workTok
            (rollPhase st).currentTask.workLen (nextToken B st) ∧
      (gsDoOnce B st).state.currentTask.workLen = (rollPhase st).currentTask.workLen + 1 ∧
      (reconcilePhase B (rollPhase st)).2.ctxConsumedTokens < 2048 ∧
      (gsDoOnce B st).state.ctxTok
        = Function.update (reconcilePhase B (rollPhase st)).2.ctxTok
            (reconcilePhase B (rollPhase st)).2.ctxConsumedTokens (nextToken B st) ∧
      (gsDoOnce B st).state.ctxConsumedTokens
        = (reconcilePhase B (rollPhase st)).2.ctxConsumedTokens + 1) := by
  have hl := reachable_lengths B st h
  have hroll := rollPhase_workLen_lt st
  have hcap := reachable_capacity_value B st h
  refine ⟨by omega, by omega, gsDoOnce_writes_in_bounds B st, ?_⟩
  intro hret
  obtain ⟨hrun, hb, he⟩ := gsDoOnce_ret_one B st hret
  have hc : (reconcilePhase B (rollPhase st)).2.ctxConsumedTokens < 2048 := by omega
  rw [gsDoOnce_token B st hrun hb he hc]
  exact ⟨by omega, rfl, rfl, hc, rfl, rfl⟩

/-- C13 on the task just added to the initial state. -/
theorem buffer_bounds_invariant_witness :
    Reachable toyBackend (gsAddTask toyBackend 7 "ab" "xyz" 5 100 100 (initState 0)).state ∧
    (gsAddTask toyBackend 7 "ab" "xyz" 5 100 100 (initState 0)).state.currentTask.workLen
      ≤ 2048 ∧
    (gsAddTask toyBackend 7 "ab" "xyz" 5 100 100 (initState 0)).state.ctxConsumedTokens
      ≤ 2048 :=
  ⟨Reachable.addTask 7 "ab" "xyz" 5 100 100 (Reachable.init 0),
    (buffer_bounds_invariant toyBackend _
      (Reachable.addTask 7 "ab" "xyz" 5 100 100 (Reachable.init 0))).1,
    (buffer_bounds_invariant toyBackend _
      (Reachable.addTask 7 "ab" "xyz" 5 100 100 (Reachable.init 0))).2.1⟩

/-- C20: in a reachable state, a call of gsDoOnce that emits a token (return value 1)
finds ctxConsumedTokens < 2048 at the capacity test, in fact equal to the working
length the roll block left, so it takes the append branch and not the one that sets
ctxDirty: it returns with ctxDirty = false and ctxConsumedTokens one higher. -/
theorem ctx_full_branch_unreachable (B : Backend β) (st : State β) (h : Reachable B st)
    (hret : (gsDoOnce B st).ret = 1) :
    (reconcilePhase B (rollPhase st)).2.ctxConsumedTokens
      = (rollPhase st).currentTask.workLen ∧
    (reconcilePhase B (rollPhase st)).2.ctxConsumedTokens < 2048 ∧
    (gsDoOnce B st).state.ctxDirty = false ∧
    (gsDoOnce B st).state.ctxConsumedTokens
      = (reconcilePhase B (rollPhase st)).2.ctxConsumedTokens + 1 := by
  have hroll := rollPhase_workLen_lt st
  have hcap := reachable_capacity_value B st h
  obtain ⟨hrun, hb, he⟩ := gsDoOnce_ret_one B st hret
  have hc : (reconcilePhase B (rollPhase st)).2.ctxConsumedTokens < 2048 := by omega
  rw [gsDoOnce_token B st hrun hb he hc]
  exact ⟨hcap, hc, rfl, rfl⟩

/-- C20 on the task just added to the initial state: the first call returns 1. -/
theorem ctx_full_branch_unreachable_witness :
    Reachable toyBackend (gsAddTask toyBackend 7 "ab" "xyz" 5 100 100 (initState 0)).state ∧
    (gsDoOnce toyBackend
      (gsAddTask toyBackend 7 "ab" "xyz" 5 100 100 (initState 0)).state).ret = 1 ∧
    (gsDoOnce toyBackend
      (gsAddTask toyBackend 7 "ab" "xyz" 5 100 100 (initState 0)).state).state.ctxDirty
      = false :=
  ⟨Reachable.addTask 7 "ab" "xyz" 5 100 100 (Reachable.init 0), by decide,
    (ctx_full_branch_unreachable toyBackend _
      (Reachable.addTask 7 "ab" "xyz" 5 100 100 (Reachable.init 0)) (by decide)).2.2.1⟩

/-! ## The system tokens and the working length -/

theorem fixedBackend_nextToken (S H : List llama_token) (st : State Nat) :
    nextToken (fixedBackend S H) st = 9 := rfl

theorem fixedBackend_never_eos (S H : List llama_token) (st : State Nat) :
    nextToken (fixedBackend S H) st ≠ (fixedBackend S H).token_eos := by
  show (9 : Int) ≠ 2
  decide

/-- With `fixedBackend S H`, where S and H together fill the 1748 cells an add may
use: the task added to the initial state with a budget of 1000 and stepped 252
times is running with workLen = 2000. -/
theorem fixedBackend_grown (S H : List llama_token) (hS : S.length < 2048 - 300)
    (hH : 2048 - 300 - S.length ≤ H.length) :
    Reachable (fixedBackend S H)
      (run (fixedBackend S H) 252
        (gsAddTask (fixedBackend S H) 7 "s" "h" 1000 100 100 (initState 0)).state).2 ∧
    (run (fixedBackend S H) 252
      (gsAddTask (fixedBackend S H) 7 "s" "h" 1000 100 100
        (initState 0)).state).2.currentTask.taskState = TASK_STATE_RUNNING ∧
    (run (fixedBackend S H) 252
      (gsAddTask (fixedBackend S H) 7 "s" "h" 1000 100 100
        (initState 0)).state).2.currentTask.tokensGenerated = 252 ∧
    (run (fixedBackend S H) 252
      (gsAddTask (fixedBackend S H) 7 "s" "h" 1000 100 100
        (initState 0)).state).2.currentTask.maxNewTokens = 1000 ∧
    (run (fixedBackend S H) 252
      (gsAddTask (fixedBackend S H) 7 "s" "h" 1000 100 100
        (initState 0)).state).2.currentTask.workLen = 2000 ∧
    (run (fixedBackend S H) 252
      (gsAddTask (fixedBackend S H) 7 "s" "h" 1000 100 100
        (initState 0)).state).2.currentTask.systemPromptLen = S.length := by
  have hS1 : ((fixedBackend S H).tokenize "s" true).length < 2048 - 300 := hS
  have hadd := gsAddTask_ok (fixedBackend S H) 7 "s" "h" 1000 100 100 (initState 0) hS1
  simp only [fixedBackend_tokenize_system, fixedBackend_tokenize_history] at hadd
  have hmin : min (2048 - 300 - S.length) H.length = 2048 - 300 - S.length :=
    Nat.min_eq_left hH
  rw [hmin] at hadd
  have hreach0 := Reachable.addTask (B := fixedBackend S H) 7 "s" "h" 1000 100 100
    (Reachable.init (B := fixedBackend S H) 0)
  generalize gsAddTask (fixedBackend S H) 7 "s" "h" 1000 100 100 (initState 0) = r
    at hadd hreach0
  have hrun : r.state.currentTask.taskState = TASK_STATE_RUNNING := by rw [hadd]
  have hgen : r.state.currentTask.tokensGenerated = 0 := by rw [hadd]
  have hmax : r.state.currentTask.maxNewTokens = 1000 := by rw [hadd]
  have hlen : r.state.currentTask.workLen = 1748 := by
    rw [hadd]
    show S.length + (2048 - 300 - S.length) = 1748
    omega
  have hsys : r.state.currentTask.systemPromptLen = S.length := by rw [hadd]
  obtain ⟨g1, _, g3, g4, _⟩ := run_generating (fixedBackend S H) r.state hrun 252
    (by rw [hgen, hmax]; decide) (fun k _ => fixedBackend_never_eos S H _)
  obtain ⟨w1, w2, _⟩ := run_below_threshold (fixedBackend S H) r.state hrun 252
    (by rw [hgen, hmax]; decide) (by rw [hlen]) (fun k _ => fixedBackend_never_eos S H _)
  refine ⟨reachable_run _ _ hreach0 252, g1, ?_, ?_, ?_, ?_⟩
  · rw [g4, hgen]; rfl
  · rw [g3, hmax]
  · rw [w1, hlen]
  · rw [w2, hsys]

/-- One more call after `fixedBackend_grown`: the call rolls and appends, leaving
workLen = 1025 whatever the number of system tokens. -/
theorem fixedBackend_rolled (S H : List llama_token) (hS : S.length < 2048 - 300)
    (hH : 2048 - 300 - S.length ≤ H.length) :
    Reachable (fixedBackend S H)
      (run (fixedBackend S H) 253
        (gsAddTask (fixedBackend S H) 7 "s" "h" 1000 100 100 (initState 0)).state).2 ∧
    (run (fixedBackend S H) 253
      (gsAddTask (fixedBackend S H) 7 "s" "h" 1000 100 100
        (initState 0)).state).2.currentTask.taskState = TASK_STATE_RUNNING ∧
    (run (fixedBackend S H) 253
      (gsAddTask (fixedBackend S H) 7 "s" "h" 1000 100 100
        (initState 0)).state).2.currentTask.systemPromptLen = S.length ∧
    (run (fixedBackend S H) 253
      (gsAddTask (fixedBackend S H) 7 "s" "h" 1000 100 100
        (initState 0)).state).2.currentTask.workLen = 1025 := by
  obtain ⟨h1, h2, h3, h4, h5, h6⟩ := fixedBackend_grown S H hS hH
  rw [run_succ_last]
  generalize (run (fixedBackend S H) 252
    (gsAddTask (fixedBackend S H) 7 "s" "h" 1000 100 100 (initState 0)).state).2 = st
    at h1 h2 h3 h4 h5 h6
  have hf := gsDoOnce_token_fields (fixedBackend S H) st h2 (by rw [h3, h4]; decide)
    (fixedBackend_never_eos S H st)
  rw [rollPhase_workLen_of_ge st (by rw [h5])] at hf
  exact ⟨Reachable.doOnce h1, hf.2.2.2.1, by rw [hf.2.2.2.2.2, h6], hf.2.1⟩

/-- C14, the code at a failing input: after gsAddTask with 1100 system tokens, 648
history tokens and maxNewTokens = 1000 on the initial state and 253 calls of gsDoOnce
(the last of which rolls at workLen = 2000 and appends one token), the task is running
with systemPromptLen = 1100 and workLen = 1025: systemPromptLen ≤ workLen does not
hold in this reachable state. -/
theorem system_tokens_exceed_working_length :
    Reachable deepSystemBackend deepSystemState ∧
    deepSystemState.currentTask.taskState = TASK_STATE_RUNNING ∧
    deepSystemState.currentTask.systemPromptLen = 1100 ∧
    deepSystemState.currentTask.workLen = 1025 ∧
    ¬ (deepSystemState.currentTask.systemPromptLen ≤ deepSystemState.currentTask.workLen) := by
  have hS : (List.replicate 1100 (5 : llama_token)).length < 2048 - 300 := by
    rw [List.length_replicate]; decide
  have hH : 2048 - 300 - (List.replicate 1100 (5 : llama_token)).length
      ≤ (List.replicate 648 (6 : llama_token)).length := by
    rw [List.length_replicate, List.length_replicate]
  obtain ⟨h1, h2, h3, h4⟩ := fixedBackend_rolled _ _ hS hH
  rw [List.length_replicate] at h3
  unfold deepSystemState deepSystemBackend
  refine ⟨h1, h2, h3, h4, ?_⟩
  rw [h3, h4]
  decide

/-- Where the system tokens number at most 1024 they stay inside the working
sequence: in every reachable state with systemPromptLen ≤ 1024,
systemPromptLen ≤ workLen. -/
theorem reachable_system_within_working {β : Type} (B : Backend β) (st : State β)
    (h : Reachable B st) :
    st.currentTask.systemPromptLen ≤ 1024 →
      st.currentTask.systemPromptLen ≤ st.currentTask.workLen := by
  induction h with
  | init c => intro _; exact Nat.le_refl _
  | @addTask s id system history maxNewTokens temperature topP _ ih =>
    by_cases hS : (B.tokenize system true).length < 2048 - 300
    · rw [gsAddTask_ok B id system history maxNewTokens temperature topP s hS]
      intro _
      exact Nat.le_add_right _ _
    · rw [gsAddTask_fail B id system history maxNewTokens temperature topP s (by omega)]
      exact ih
  | @doOnce s _ ih =>
    by_cases hrun : s.currentTask.taskState = TASK_STATE_RUNNING
    · have hrolled : s.currentTask.systemPromptLen ≤ 1024 →
          s.currentTask.systemPromptLen ≤ (rollPhase s).currentTask.workLen := by
        intro hle
        by_cases hl : 2000 ≤ s.currentTask.workLen
        · rw [rollPhase_workLen_of_ge s hl]; exact hle
        · rw [rollPhase_of_lt s (by omega)]; exact ih hle
      by_cases hb : s.currentTask.tokensGenerated < s.currentTask.maxNewTokens
      · by_cases he : nextToken B s = B.token_eos
        · rw [gsDoOnce_eos B s hrun hb he]
          intro hle
          have hle1 : s.currentTask.systemPromptLen ≤ 1024 := by
            rw [← rollPhase_systemPromptLen s]; exact hle
          have := hrolled hle1
          show (rollPhase s).currentTask.systemPromptLen ≤ (rollPhase s).currentTask.workLen
          rw [rollPhase_systemPromptLen]; exact this
        · obtain ⟨_, f2, _, _, _, f6⟩ := gsDoOnce_token_fields B s hrun hb he
          rw [f2, f6]
          intro hle
          have := hrolled hle
          omega
      · rw [gsDoOnce_budget B s hrun (by omega)]
        intro hle
        have hle1 : s.currentTask.systemPromptLen ≤ 1024 := by
          rw [← rollPhase_systemPromptLen s]; exact hle
        have := hrolled hle1
        show (rollPhase s).currentTask.systemPromptLen ≤ (rollPhase s).currentTask.workLen
        rw [rollPhase_systemPromptLen]; exact this
    · rw [gsDoOnce_not_running B s hrun]
      exact ih
  | @cancelTask s id _ ih =>
    unfold gsCancelTask
    split
    · exact ih
    · exact ih

end lengths

/-! ## The status of llama_eval -/

section evalStatus

variable {β : Type}

theorem evalLoop_withStatus (B : Backend β) (rc : β → List llama_token → Nat → Int)
    (w : Nat → llama_token) (workLen : Nat) :
    ∀ (fuel n_past : Nat) (c : β),
      evalLoop (withStatus B rc) w workLen fuel n_past c = evalLoop B w workLen fuel n_past c := by
  intro fuel
  induction fuel with
  | zero => intro n_past c; rfl
  | succ k ih =>
    intro n_past c
    conv_lhs => unfold evalLoop
    conv_rhs => unfold evalLoop
    split
    · simp only []
      rw [show (withStatus B rc).n_batch = B.n_batch from rfl,
        show ((withStatus B rc).eval c
          (slice w n_past (n_past + min B.n_batch (workLen - n_past))) n_past).1
          = (B.eval c (slice w n_past (n_past + min B.n_batch (workLen - n_past))) n_past).1
          from rfl, ih]
    · rfl

theorem reconcilePhase_withStatus (B : Backend β) (rc : β → List llama_token → Nat → Int)
    (st : State β) : reconcilePhase (withStatus B rc) st = reconcilePhase B st := by
  unfold reconcilePhase reconcile
  simp only [evalLoop_withStatus]

/-- What gsDoOnce returns, emits and leaves in the globals does not depend on the
status values of llama_eval. -/
theorem gsDoOnce_withStatus (B : Backend β) (rc : β → List llama_token → Nat → Int)
    (st : State β) : gsDoOnce (withStatus B rc) st = gsDoOnce B st := by
  unfold gsDoOnce
  simp only [reconcilePhase_withStatus]
  rfl

/-- C15, refuted as stated: with a backend whose every evaluation reports failure,
the first call on a freshly added (running, dirty) task submits the prompt batch
during reconciliation and still returns 1 with ctxDirty = false, ctxConsumedTokens
counting the prompt and the new token, and a token event emitted. -/
theorem failed_eval_clears_dirty :
    (∀ c toks n_past, (failingBackend.eval c toks n_past).2 ≠ 0) ∧
    (gsAddTask failingBackend 7 "ab" "xyz" 5 100 100 (initState 0)).state.currentTask.taskState
      = TASK_STATE_RUNNING ∧
    (gsAddTask failingBackend 7 "ab" "xyz" 5 100 100 (initState 0)).state.ctxDirty = true ∧
    (gsDoOnce failingBackend
        (gsAddTask failingBackend 7 "ab" "xyz" 5 100 100 (initState 0)).state).events
      = [Event.eval [1, 97, 98, 120, 121, 122] 0, Event.token 7 "9", Event.eval [9] 6] ∧
    (gsDoOnce failingBackend
        (gsAddTask failingBackend 7 "ab" "xyz" 5 100 100 (initState 0)).state).ret = 1 ∧
    (gsDoOnce failingBackend
        (gsAddTask failingBackend 7 "ab" "xyz" 5 100 100 (initState 0)).state).state.ctxDirty
      = false ∧
    (gsDoOnce failingBackend
        (gsAddTask failingBackend 7 "ab" "xyz" 5 100 100
          (initState 0)).state).state.ctxConsumedTokens = 7 := by
  refine ⟨?_, by decide, by decide, by decide, by decide, by decide, by decide⟩
  intro c toks n_past
  show (1 : Int) ≠ 0
  decide

/-- C15, amended: for a running task with ctxDirty = true and budget left, whatever
status the evaluation calls report (gsDoOnce never reads it: with any other status
values the call returns, emits and leaves the same), the reconciliation runs to its
end: ctxTok[0:workLen] is overwritten with the working sequence, ctxConsumedTokens is
set to the working length and ctxDirty is cleared, and the call goes on to sample; if
the greedy choice is not the end-of-sequence id it returns 1 with a token event and
ctxDirty = false. -/
theorem eval_status_is_ignored (B : Backend β) (st : State β)
    (hrun : st.currentTask.taskState = TASK_STATE_RUNNING)
    (hdirty : st.ctxDirty = true)
    (hb : st.currentTask.tokensGenerated < st.currentTask.maxNewTokens) :
    (∀ rc : β → List llama_token → Nat → Int,
      gsDoOnce (withStatus B rc) st = gsDoOnce B st) ∧
    (reconcilePhase B (rollPhase st)).2.ctxDirty = false ∧
    (reconcilePhase B (rollPhase st)).2.ctxConsumedTokens
      = (rollPhase st).currentTask.workLen ∧
    (∀ i, i < (rollPhase st).currentTask.workLen →
      (reconcilePhase B (rollPhase st)).2.ctxTok i = (rollPhase st).currentTask.workTok i) ∧
    (nextToken B st ≠ B.token_eos →
      (gsDoOnce B st).ret = 1 ∧
      transportEvents (gsDoOnce B st).events
        = [Event.token st.currentTask.taskID (B.token_to_str (nextToken B st))] ∧
      (gsDoOnce B st).state.ctxDirty = false ∧
      (gsDoOnce B st).state.ctxConsumedTokens = (rollPhase st).currentTask.workLen + 1) := by
  have hd : (rollPhase st).ctxDirty = true := by
    unfold rollPhase
    split
    · rfl
    · exact hdirty
  have hm := reconcilePhase_mirrors B (rollPhase st) (fun hc => by rw [hd] at hc; cases hc)
  have hroll := rollPhase_workLen_lt st
  refine ⟨fun rc => gsDoOnce_withStatus B rc st, reconcilePhase_ctxDirty B _, hm.1, hm.2, ?_⟩
  intro he
  have hc : (reconcilePhase B (rollPhase st)).2.ctxConsumedTokens < 2048 := by
    rw [hm.1]; omega
  refine ⟨(gsDoOnce_token_task B st hrun hb he).1, gsDoOnce_token_transport B st hrun hb he,
    ?_, ?_⟩
  · rw [gsDoOnce_token B st hrun hb he hc]
  · rw [gsDoOnce_token B st hrun hb he hc]
    show (reconcilePhase B (rollPhase st)).2.ctxConsumedTokens + 1 = _
    rw [hm.1]

/-- The amended C15 on a freshly added task with the backend whose evaluations all
report failure. -/
theorem eval_status_is_ignored_witness :
    (gsAddTask failingBackend 7 "ab" "xyz" 5 100 100 (initState 0)).state.currentTask.taskState
      = TASK_STATE_RUNNING ∧
    (gsAddTask failingBackend 7 "ab" "xyz" 5 100 100 (initState 0)).state.ctxDirty = true ∧
    (reconcilePhase failingBackend (rollPhase
      (gsAddTask failingBackend 7 "ab" "xyz" 5 100 100 (initState 0)).state)).2.ctxDirty
      = false :=
  ⟨rfl, rfl,
    (eval_status_is_ignored failingBackend
      (gsAddTask failingBackend 7 "ab" "xyz" 5 100 100 (initState 0)).state rfl rfl
      (by decide)).2.1⟩

end evalStatus

/-! ## The comparison loop -/

section keep

/-- C16, the code at a failing input: a task with system "ab" and history "xyz" is
added to the initial state and stepped once (the cache then holds its 6 prompt tokens
and the generated 9), and a second task with the same texts is added.  The state is
dirty with workLen = 6 and ctxConsumedTokens = 7, and the left-over cell workTok[6]
still holds 9.  The comparison loop runs over all 7 cache cells and yields
tokensCanKeep = 7, above min(ctxConsumedTokens, workLen) = 6, the length of the
longest common prefix of the cache and the working sequence. -/
theorem keep_loop_counts_stale_cell :
    Reachable toyBackend repeatState ∧
    repeatState.currentTask.taskState = TASK_STATE_RUNNING ∧
    repeatState.ctxDirty = true ∧
    repeatState.currentTask.workLen = 6 ∧
    repeatState.ctxConsumedTokens = 7 ∧
    slice repeatState.ctxTok 0 7 = [1, 97, 98, 120, 121, 122, 9] ∧
    slice repeatState.currentTask.workTok 0 6 = [1, 97, 98, 120, 121, 122] ∧
    repeatState.currentTask.workTok 6 = 9 ∧
    keepLoop repeatState.ctxTok repeatState.currentTask.workTok
      repeatState.ctxConsumedTokens 0 = 7 ∧
    ¬ (keepLoop repeatState.ctxTok repeatState.currentTask.workTok
        repeatState.ctxConsumedTokens 0
      ≤ min repeatState.ctxConsumedTokens repeatState.currentTask.workLen) := by
  refine ⟨reachable_calls toyBackend _ _ (Reachable.init 0), by decide, by decide, by decide,
    by decide, by decide, by decide, by decide, by decide, by decide⟩

/-- The call made in `repeatState`: with tokensCanKeep = 7 ≥ workLen = 6 the
reconciliation submits no batch; the events are the token callback and the evaluation
of the new token at position 6. -/
theorem toy_repeat_call_events :
    (gsDoOnce toyBackend repeatState).events = [Event.token 8 "9", Event.eval [9] 6] ∧
    (gsDoOnce toyBackend repeatState).state.ctxConsumedTokens = 7 := by
  decide

end keep

/-! ## The batching loop -/

section batches

variable {β : Type}

theorem slice_append (a : Nat → llama_token) (lo mid hi : Nat) (h1 : lo ≤ mid)
    (h2 : mid ≤ hi) : slice a lo mid ++ slice a mid hi = slice a lo hi := by
  apply List.ext_getElem
  · rw [List.length_append, slice_length, slice_length, slice_length]
    omega
  · intro i hi1 hi2
    rw [getElem_slice]
    by_cases hlt : i < (slice a lo mid).length
    · rw [List.getElem_append_left hlt, getElem_slice]
    · have hge : (slice a lo mid).length ≤ i := by omega
      rw [List.getElem_append_right hge, getElem_slice]
      rw [slice_length] at hge ⊢
      congr 1
      omega

theorem batchCount_zero (nb x : Nat) (hnb : 0 < nb) (hx : x = 0) :
    (x + nb - 1) / nb = 0 := by
  subst hx
  exact Nat.div_eq_of_lt (by omega)

theorem batchCount_last (nb x : Nat) (hx : 0 < x) (hlt : x < nb) :
    (x + nb - 1) / nb = 1 :=
  Nat.div_eq_of_lt_le (by omega) (by omega)

theorem batchCount_step (nb x : Nat) (hnb : 0 < nb) (hle : nb ≤ x) :
    (x + nb - 1) / nb = (x - nb + nb - 1) / nb + 1 := by
  have e : x + nb - 1 = (x - nb + nb - 1) + nb := by omega
  rw [e, Nat.add_div_right _ hnb]

/-- The evaluation requests of the batching loop entered at `n_past` with enough
iterations allowed: batch `j` starts at `n_past + j * n_batch`, has
`min n_batch (workLen - start)` tokens and carries those cells of the working array. -/
theorem evalLoop_events_closed (B : Backend β) (w : Nat → llama_token) (workLen : Nat) :
    ∀ (fuel n_past : Nat) (c : β), workLen - n_past ≤ fuel →
      (evalLoop B w workLen fuel n_past c).1 =
        (List.range ((workLen - n_past + B.n_batch - 1) / B.n_batch)).map (fun j =>
          Event.eval
            (slice w (n_past + j * B.n_batch)
              (n_past + j * B.n_batch + min B.n_batch (workLen - (n_past + j * B.n_batch))))
            (n_past + j * B.n_batch)) := by
  have hnb := B.n_batch_pos
  intro fuel
  induction fuel with
  | zero =>
    intro n_past c h
    rw [batchCount_zero _ _ hnb (by omega)]
    rfl
  | succ f ih =>
    intro n_past c h
    by_cases hlt : n_past < workLen
    · conv_lhs => unfold evalLoop
      rw [if_pos hlt]
      simp only []
      by_cases hfull : B.n_batch ≤ workLen - n_past
      · have hmin : min B.n_batch (workLen - n_past) = B.n_batch := Nat.min_eq_left hfull
        rw [hmin, ih (n_past + B.n_batch) _ (by omega),
          batchCount_step B.n_batch (workLen - n_past) hnb hfull,
          List.range_succ_eq_map, List.map_cons, List.map_map]
        have e : workLen - (n_past + B.n_batch) = workLen - n_past - B.n_batch := by omega
        rw [e]
        congr 1
        · simp only [Nat.zero_mul, Nat.add_zero]
          rw [hmin]
        · apply List.map_congr_left
          intro j _
          simp only [Function.comp, Nat.succ_eq_add_one, Nat.add_mul, Nat.one_mul]
          have e2 : n_past + B.n_batch + j * B.n_batch = n_past + (j * B.n_batch + B.n_batch) := by
            omega
          rw [e2]
      · have hx : workLen - n_past < B.n_batch := by omega
        have hmin : min B.n_batch (workLen - n_past) = workLen - n_past :=
          Nat.min_eq_right (by omega)
        rw [hmin, ih (n_past + (workLen - n_past)) _ (by omega),
          batchCount_last B.n_batch (workLen - n_past) (by omega) hx,
          batchCount_zero B.n_batch _ hnb (by omega)]
        have r1 : List.range 1 = [0] := rfl
        rw [r1]
        simp only [List.range_zero, List.map_nil, List.map_cons, Nat.zero_mul, Nat.add_zero]
        rw [hmin]
    · unfold evalLoop
      rw [if_neg hlt, batchCount_zero _ _ hnb (by omega)]
      rfl

/-- The tokens submitted by the batching loop, concatenated, are the cells from
`n_past` up to the working length. -/
theorem evalLoop_evalTokens (B : Backend β) (w : Nat → llama_token) (workLen : Nat) :
    ∀ (fuel n_past : Nat) (c : β), workLen - n_past ≤ fuel →
      evalTokens (evalLoop B w workLen fuel n_past c).1 = slice w n_past workLen := by
  have hnb := B.n_batch_pos
  intro fuel
  induction fuel with
  | zero =>
    intro n_past c h
    have e : workLen - n_past = 0 := by omega
    unfold slice
    rw [e]
    rfl
  | succ f ih =>
    intro n_past c h
    by_cases hlt : n_past < workLen
    · conv_lhs => unfold evalLoop
      rw [if_pos hlt]
      simp only []
      show slice w n_past (n_past + min B.n_batch (workLen - n_past))
        ++ evalTokens (evalLoop B w workLen f (n_past + min B.n_batch (workLen - n_past)) _).1 = _
      have hm1 : 1 ≤ min B.n_batch (workLen - n_past) := by
        rw [Nat.le_min]; omega
      have hm2 : min B.n_batch (workLen - n_past) ≤ workLen - n_past := Nat.min_le_right _ _
      rw [ih _ _ (by omega)]
      exact slice_append w _ _ _ (by omega) (by omega)
    · have e : workLen - n_past = 0 := by omega
      unfold evalLoop
      rw [if_neg hlt]
      unfold slice
      rw [e]
      rfl

/-- Every request of the batching loop starts at or after the entry position and
below the working length. -/
theorem evalLoop_events_pos (B : Backend β) (w : Nat → llama_token) (workLen : Nat) :
    ∀ (fuel n_past : Nat) (c : β), ∀ e ∈ (evalLoop B w workLen fuel n_past c).1,
      ∃ toks pos, e = Event.eval toks pos ∧ n_past ≤ pos ∧ pos < workLen := by
  intro fuel
  induction fuel with
  | zero => intro n_past c e he; simp [evalLoop] at he
  | succ k ih =>
    intro n_past c e he
    unfold evalLoop at he
    split at he
    · rename_i hlt
      simp only [List.mem_cons] at he
      rcases he with rfl | he
      · exact ⟨_, _, rfl, Nat.le_refl _, hlt⟩
      · obtain ⟨toks, pos, h1, h2, h3⟩ := ih _ _ e he
        exact ⟨toks, pos, h1, by omega, h3⟩
    · simp at he

/-- C17: for every backend (its batch limit n_batch is at least 1) and every state,
with p the value tokensCanKeep computed by the comparison loop: the batching loop of
the reconciliation ends by its own test (allowing it more iterations changes nothing);
the evaluation calls it submits are, in order, batch j at start position
p + j * n_batch with min(n_batch, workLen - start) tokens, carrying
workTok[start : start + size]; concatenated they are exactly workTok[p:workLen], so
workLen - p tokens are evaluated (none when p ≥ workLen), every start position is at
least p and below workLen, and no call is submitted when p ≥ workLen, in particular
when p = workLen. -/
theorem reconcile_batches_cover_suffix (B : Backend β) (st : State β) :
    let p := keepLoop st.ctxTok st.currentTask.workTok st.ctxConsumedTokens 0
    let w := st.currentTask.workTok
    let len := st.currentTask.workLen
    (∀ fuel, len - p ≤ fuel →
      evalLoop B w len fuel p st.ctx = evalLoop B w len (len - p) p st.ctx) ∧
    (reconcile B st).1 =
      (List.range ((len - p + B.n_batch - 1) / B.n_batch)).map (fun j =>
        Event.eval
          (slice w (p + j * B.n_batch)
            (p + j * B.n_batch + min B.n_batch (len - (p + j * B.n_batch))))
          (p + j * B.n_batch)) ∧
    evalTokens (reconcile B st).1 = slice w p len ∧
    (evalTokens (reconcile B st).1).length = len - p ∧
    (∀ e ∈ (reconcile B st).1, ∃ toks pos, e = Event.eval toks pos ∧ p ≤ pos ∧ pos < len) ∧
    (len ≤ p → (reconcile B st).1 = []) := by
  intro p w len
  have hev : (reconcile B st).1 = (evalLoop B w len (len - p) p st.ctx).1 := rfl
  have htok := evalLoop_evalTokens B w len (len - p) p st.ctx (Nat.le_refl _)
  refine ⟨?_, ?_, ?_, ?_, ?_, ?_⟩
  · intro fuel hf
    exact evalLoop_fuel_irrelevant B w len fuel (len - p) p st.ctx hf (Nat.le_refl _)
  · rw [hev]
    exact evalLoop_events_closed B w len (len - p) p st.ctx (Nat.le_refl _)
  · rw [hev]
    exact htok
  · rw [hev, htok, slice_length]
  · rw [hev]
    exact evalLoop_events_pos B w len (len - p) p st.ctx
  · intro hle
    rw [hev]
    have e : len - p = 0 := by omega
    rw [e]
    rfl

/-- The scenario of C17: a task with system "ab" and empty history added to the
initial state has workLen = systemPromptLen = 3; the comparison loop gives p = 0 on the
empty cache, and the reconciliation evaluates the 3 system tokens in one batch. -/
theorem toy_empty_history_reconcile :
    (gsAddTask toyBackend 7 "ab" "" 5 100 100 (initState 0)).state.currentTask.workLen = 3 ∧
    (gsAddTask toyBackend 7 "ab" "" 5 100 100 (initState 0)).state.currentTask.systemPromptLen
      = 3 ∧
    keepLoop (gsAddTask toyBackend 7 "ab" "" 5 100 100 (initState 0)).state.ctxTok
      (gsAddTask toyBackend 7 "ab" "" 5 100 100 (initState 0)).state.currentTask.workTok
      (gsAddTask toyBackend 7 "ab" "" 5 100 100 (initState 0)).state.ctxConsumedTokens 0 = 0 ∧
    (reconcile toyBackend (gsAddTask toyBackend 7 "ab" "" 5 100 100 (initState 0)).state).1
      = [Event.eval [1, 97, 98] 0] := by
  decide

end batches

/-! ## Claims on the reconciled cache -/

section cache

variable {β : Type}

/-- C18: for a running task with ctxDirty = true, workLen < 2000 and
tokensGenerated < maxNewTokens, in the state gsDoOnce has after its reconciliation
block and samples in: ctxTok[0:workLen] = workTok[0:workLen],
ctxConsumedTokens = workLen, ctxDirty = false, and the task (workTok, workLen and all
other fields) is as before the call.  That state is where the call continues: the
greedy choice is taken on its context, and the globals returned are that state with
the effect of the finish or of the append. -/
theorem reconciliation_postcondition (B : Backend β) (st : State β)
    (hrun : st.currentTask.taskState = TASK_STATE_RUNNING)
    (hdirty : st.ctxDirty = true)
    (hlen : st.currentTask.workLen < 2000)
    (hb : st.currentTask.tokensGenerated < st.currentTask.maxNewTokens) :
    slice (reconcilePhase B (rollPhase st)).2.ctxTok 0 st.currentTask.workLen
      = slice st.currentTask.workTok 0 st.currentTask.workLen ∧
    (reconcilePhase B (rollPhase st)).2.ctxConsumedTokens = st.currentTask.workLen ∧
    (reconcilePhase B (rollPhase st)).2.ctxDirty = false ∧
    (reconcilePhase B (rollPhase st)).2.currentTask = st.currentTask ∧
    nextToken B st = B.sampleGreedy (reconcilePhase B (rollPhase st)).2.ctx ∧
    (nextToken B st = B.token_eos →
      (gsDoOnce B st).state =
        { (reconcilePhase B (rollPhase st)).2 with
          currentTask := { st.currentTask with taskState := TASK_STATE_INVALID }
          ctxDirty := true }) ∧
    (nextToken B st ≠ B.token_eos →
      (gsDoOnce B st).state.ctxTok
        = Function.update (reconcilePhase B (rollPhase st)).2.ctxTok st.currentTask.workLen
            (nextToken B st) ∧
      (gsDoOnce B st).state.ctxConsumedTokens = st.currentTask.workLen + 1 ∧
      (gsDoOnce B st).state.ctxDirty = false) := by
  have hroll : rollPhase st = st := rollPhase_of_lt st hlen
  have hm := reconcilePhase_mirrors B st (fun hc => by rw [hdirty] at hc; cases hc)
  rw [hroll]
  refine ⟨?_, hm.1, reconcilePhase_ctxDirty B st, reconcilePhase_currentTask B st, ?_, ?_, ?_⟩
  · apply slice_congr
    intro i _ hi
    exact hm.2 i hi
  · unfold nextToken
    rw [hroll]
  · intro he
    have h := gsDoOnce_eos B st hrun hb he
    rw [hroll] at h
    rw [h]
  · intro he
    have hc : (reconcilePhase B (rollPhase st)).2.ctxConsumedTokens < 2048 := by
      rw [hroll, hm.1]; omega
    have h := gsDoOnce_token B st hrun hb he hc
    rw [hroll, hm.1] at h
    rw [h]
    exact ⟨rfl, rfl, rfl⟩

/-- C18 on the task just added to the initial state. -/
theorem reconciliation_postcondition_witness :
    (gsAddTask toyBackend 7 "ab" "xyz" 5 100 100 (initState 0)).state.currentTask.taskState
      = TASK_STATE_RUNNING ∧
    (gsAddTask toyBackend 7 "ab" "xyz" 5 100 100 (initState 0)).state.ctxDirty = true ∧
    (gsAddTask toyBackend 7 "ab" "xyz" 5 100 100 (initState 0)).state.currentTask.workLen
      < 2000 ∧
    (reconcilePhase toyBackend (rollPhase
      (gsAddTask toyBackend 7 "ab" "xyz" 5 100 100 (initState 0)).state)).2.ctxConsumedTokens
      = (gsAddTask toyBackend 7 "ab" "xyz" 5 100 100 (initState 0)).state.currentTask.workLen :=
  ⟨rfl, rfl, by decide,
    (reconciliation_postcondition toyBackend
      (gsAddTask toyBackend 7 "ab" "xyz" 5 100 100 (initState 0)).state rfl rfl (by decide)
      (by decide)).2.1⟩

/-! ### What the backend context reflects -/

end cache

end Gs
